import Mathlib

/-!
# `SerialCommsInterface` (include/rallycar/serial_comms_interface.hpp)

A shallow embedding of the host-side transport multiplexer: the transmit
buffer arbiter (`getEndpointBuffer` / `returnEndpointBuffer`), the endpoint
registry (`registerEndpoint`), the clock-sync handshake (`clock_sync_reply`),
`reset`, and the inbound dispatcher (`onIncomingData`).

Conventions of the embedding.

* Bytes and the other machine integers are `Nat`; a narrowing conversion the
  source performs is written as an explicit `% 2^w`.
* An operation whose C++ execution would be undefined (a store past the end of
  `txBuffer`, a dereferenced null pointer, an index past the endpoint table)
  returns `none`.
* The framer and the endpoint handlers are external collaborators.  A call
  made to one of them is recorded as an `Event`, in program order; what the
  collaborator does with the call is not part of this class.
* A pointer into `txBuffer` is the offset it points at; `nullptr` is `none`.
  An endpoint pointer is `some address`, or `none` for `nullptr`.
* Histories of the object are sequences of `Op` (the member functions and a
  producer's stores into the payload region), executed by `step` and `run`;
  statements about "every reachable state" are statements about every defined
  `run` from `construct`.
-/

namespace SerialComms

/-- Modelled from the spec: the enumeration `NodeState` is declared in the
firmware header `transport_layer/endpoint.h`, which is not part of the
sources; the interface uses exactly the two link states named here. -/
inductive NodeState
  | OUT_OF_SYNC
  | RUNNING
  deriving DecidableEq

/-- The compile-time surroundings of one instantiation of the class template:
the template arguments, the two service identifiers of `NodeServiceID` after
their `(uint8_t)` conversion, and the timestamp codec `SerialTime` (type `T`).
The identifiers and the codec live in firmware headers outside the sources and
are therefore parameters.

* `deserialize req` is the number of bytes `SerialTime::deserialize(t, req)`
  reports as consumed when reading at `req`;
* `serialize t` is the byte sequence `SerialTime::serialize(t, ptr)` stores at
  `ptr`; the value it returns is the length of that sequence. -/
structure Env (T : Type) where
  TX_MTU : Nat
  MAX_ENDPOINTS : Nat
  RESET_ID : Nat
  TIME_SYNC_ID : Nat
  deserialize : List Nat → Nat
  serialize : T → List Nat

/-- A call made to an external collaborator.

* `sendFrame buffer length` is `framer.sendFrame(&txBuffer[0], length)`:
  `buffer` is the content of `txBuffer` at the moment of the call and `length`
  the value of the byte count passed along with the buffer origin (`size+2`,
  computed in `int`, so without wrap-around).
* `spin endpoint payload length` is `endpoint->spin(payload, length)`, with
  `payload` the bytes found at the pointer that is passed. -/
inductive Event
  | sendFrame (buffer : List Nat) (length : Nat)
  | spin (endpoint : Nat) (payload : List Nat) (length : Nat)
  deriving DecidableEq

/-- The bytes of a transmitted frame: the first `length` bytes at the buffer
origin, provided the buffer holds that many. -/
def frameBytes (buffer : List Nat) (length : Nat) : Option (List Nat) :=
  if length ≤ buffer.length then some (buffer.take length) else none

/-- The data members of `SerialCommsInterface`, together with the one piece of
memory outside the object the class writes to: the `stream_id` member of the
endpoint objects, by address (`endpoint_stream_id`). -/
structure SerialCommsInterface where
  txBuffer : List Nat
  txBufferLocked : Bool
  endpoints : List (Option Nat)
  max_stream_record : Nat
  driverState : NodeState
  session_id : Nat
  endpoint_stream_id : Nat → Nat

/-- The object right after the constructor has run.  `txBuffer` has no
initialiser, so its initial content `tx` is arbitrary (of `TX_MTU` bytes when
the caller supplies a list of that length); `heap` is the initial content of the
endpoint objects' `stream_id` members. -/
def construct {T : Type} (env : Env T) (sessionId : Nat) (tx : List Nat)
    (heap : Nat → Nat) : SerialCommsInterface :=
  { txBuffer := tx
    txBufferLocked := false
    endpoints := List.replicate env.MAX_ENDPOINTS none
    max_stream_record := 0
    driverState := NodeState.OUT_OF_SYNC
    session_id := sessionId % 256
    endpoint_stream_id := heap }

/-- A one-byte store `buf[i] = v`; undefined past the end of the array. -/
def store (buf : List Nat) (i v : Nat) : Option (List Nat) :=
  if i < buf.length then some (buf.set i v) else none

/-- Stores the bytes `vs` at consecutive offsets starting at `i`. -/
def storeAll (buf : List Nat) (i : Nat) : List Nat → Option (List Nat)
  | [] => some buf
  | v :: vs =>
    match store buf i v with
    | none => none
    | some b => storeAll b (i + 1) vs

/-- `getEndpointBuffer(stream_id)`: the returned pointer (`none` for `nullptr`,
`some 2` for `&txBuffer[2]`) and the state afterwards. -/
def getEndpointBuffer (s : SerialCommsInterface) (stream_id : Nat) :
    Option (Option Nat × SerialCommsInterface) :=
  if s.txBufferLocked then some (none, s)
  else
    match store s.txBuffer 0 s.session_id with
    | none => none
    | some b0 =>
      match store b0 1 stream_id with
      | none => none
      | some b1 => some (some 2, { s with txBufferLocked := true, txBuffer := b1 })

/-- `returnEndpointBuffer(size)`: the state afterwards and the calls made to the
framer. -/
def returnEndpointBuffer (s : SerialCommsInterface) (size : Nat) :
    SerialCommsInterface × List Event :=
  if size ≠ 0 then
    ({ s with txBufferLocked := false }, [Event.sendFrame s.txBuffer (size + 2)])
  else
    ({ s with txBufferLocked := false }, [])

/-- `registerEndpoint(endpoint, stream_id)`: the returned flag and the state
afterwards. -/
def registerEndpoint {T : Type} (env : Env T) (s : SerialCommsInterface)
    (endpoint : Option Nat) (stream_id : Nat) : Option (Bool × SerialCommsInterface) :=
  if stream_id ≥ env.MAX_ENDPOINTS then some (false, s)
  else
    match s.endpoints[stream_id]? with
    | none => none
    | some (some _) => some (false, s)
    | some none =>
      match endpoint with
      | none => none
      | some h =>
        let s1 : SerialCommsInterface :=
          { s with
            endpoints := s.endpoints.set stream_id (some h)
            endpoint_stream_id := Function.update s.endpoint_stream_id h stream_id }
        if stream_id ≥ s1.max_stream_record then
          some (true, { s1 with max_stream_record := (stream_id + 1) % 256 })
        else some (true, s1)

/-- The copy loop of `clock_sync_reply`: `count` iterations, iteration `n`
storing `req[n]` at `ptr` and advancing both.  Returns the buffer and the final
`ptr`. -/
def copyLoop (req : List Nat) : Nat → Nat → Nat → List Nat → Option (List Nat × Nat)
  | 0, _, ptr, buf => some (buf, ptr)
  | count + 1, n, ptr, buf =>
    match store buf ptr (req.getD n 0) with
    | none => none
    | some b => copyLoop req count (n + 1) (ptr + 1) b

/-- `clock_sync_reply(req, length)`, with `now` the value the virtual
`time_now()` returns: the returned flag, the state afterwards and the calls
made to the framer.  The function-local static `t` is overwritten by
`time_now()` before it is ever read, so it carries no state between calls. -/
def clock_sync_reply {T : Type} (env : Env T) (now : T) (s : SerialCommsInterface)
    (req : List Nat) (length : Nat) : Option (Bool × SerialCommsInterface × List Event) :=
  if length ≠ env.deserialize req then some (false, s, [])
  else
    match getEndpointBuffer s env.TIME_SYNC_ID with
    | none => none
    | some (none, s1) => some (false, s1, [])
    | some (some txBuff, s1) =>
      match copyLoop req length 0 txBuff s1.txBuffer with
      | none => none
      | some (b1, ptr) =>
        match storeAll b1 ptr (env.serialize now) with
        | none => none
        | some b2 =>
          let ptr2 := ptr + (env.serialize now).length
          let r := returnEndpointBuffer { s1 with txBuffer := b2 } ((ptr2 - txBuff) % 65536)
          some (true, r.1, r.2)

/-- The protected `reset()`: the state afterwards and the calls made to the
framer. -/
def reset {T : Type} (env : Env T) (s : SerialCommsInterface) :
    Option (SerialCommsInterface × List Event) :=
  match getEndpointBuffer s env.RESET_ID with
  | none => none
  | some (none, _) => none
  | some (some buf, s1) =>
    match store s1.txBuffer buf 0 with
    | none => none
    | some b =>
      let r := returnEndpointBuffer { s1 with txBuffer := b } 1
      some ({ r.1 with driverState := NodeState.OUT_OF_SYNC }, r.2)

/-- `onIncomingData(payload, length)`: the framer's callback for a reassembled
frame.  `payload` is the content found at the pointer, `length` the frame
length; a frame `f` is delivered as `onIncomingData env now s f f.length`, and
then every read below index `length` is a read of a frame byte.  Returns the
state afterwards and the calls made to the framer and to endpoint handlers. -/
def onIncomingData {T : Type} (env : Env T) (now : T) (s : SerialCommsInterface)
    (payload : List Nat) (length : Nat) : Option (SerialCommsInterface × List Event) :=
  if payload.getD 0 0 ≠ s.session_id ∨ length ≤ 2 then some (s, [])
  else if payload.getD 1 0 = env.TIME_SYNC_ID then
    match clock_sync_reply env now s (payload.drop 2) (length - 2) with
    | none => none
    | some (true, s1, evs) => some ({ s1 with driverState := NodeState.RUNNING }, evs)
    | some (false, s1, evs) => some (s1, evs)
  else if s.driverState ≠ NodeState.RUNNING ∨ payload.getD 1 0 ≥ s.max_stream_record then
    some (s, [])
  else
    match s.endpoints[payload.getD 1 0]? with
    | some (some h) => some (s, [Event.spin h (payload.drop 2) (length - 2)])
    | _ => none

/-- A producer's stores through the pointer `ptr` it was handed by
`getEndpointBuffer`: the bytes `bytes` at consecutive offsets from `ptr`. -/
def fillRegion (s : SerialCommsInterface) (ptr : Nat) (bytes : List Nat) :
    Option SerialCommsInterface :=
  match storeAll s.txBuffer ptr bytes with
  | none => none
  | some b => some { s with txBuffer := b }

/-- The operations that act on an interface: the member functions, and `fill`,
a producer writing `bytes` into the payload region (`&txBuffer[2]`) at
`offset`.  An inbound frame carries the value `now` that `time_now()` would
return while it is processed. -/
inductive Op (T : Type)
  | getEndpointBuffer (stream_id : Nat)
  | fill (offset : Nat) (bytes : List Nat)
  | returnEndpointBuffer (size : Nat)
  | registerEndpoint (endpoint : Option Nat) (stream_id : Nat)
  | reset
  | onIncomingData (now : T) (frame : List Nat)

/-- One operation: the state afterwards and the calls made to the framer and
to endpoint handlers; `none` when the operation is undefined. -/
def step {T : Type} (env : Env T) (s : SerialCommsInterface) :
    Op T → Option (SerialCommsInterface × List Event)
  | Op.getEndpointBuffer stream_id =>
    match getEndpointBuffer s stream_id with
    | none => none
    | some (_, s1) => some (s1, [])
  | Op.fill offset bytes =>
    match fillRegion s (2 + offset) bytes with
    | none => none
    | some s1 => some (s1, [])
  | Op.returnEndpointBuffer size => some (returnEndpointBuffer s size)
  | Op.registerEndpoint endpoint stream_id =>
    match registerEndpoint env s endpoint stream_id with
    | none => none
    | some (_, s1) => some (s1, [])
  | Op.reset => reset env s
  | Op.onIncomingData now frame => onIncomingData env now s frame frame.length

/-- A sequence of operations, one after the other: the final state and all
calls made, in order. -/
def run {T : Type} (env : Env T) (s : SerialCommsInterface) :
    List (Op T) → Option (SerialCommsInterface × List Event)
  | [] => some (s, [])
  | op :: ops =>
    match step env s op with
    | none => none
    | some (s1, evs1) =>
      match run env s1 ops with
      | none => none
      | some (s2, evs2) => some (s2, evs1 ++ evs2)

/-- Release discipline of a sequence of operations started in `s`: whenever
`returnEndpointBuffer` is called with a non-zero size, the buffer is reserved at
that moment. -/
def ReleasesHeld {T : Type} (env : Env T) (s : SerialCommsInterface) : List (Op T) → Prop
  | [] => True
  | op :: ops =>
    (∀ n, op = Op.returnEndpointBuffer n → n ≠ 0 → s.txBufferLocked = true) ∧
      match step env s op with
      | none => True
      | some (s1, _) => ReleasesHeld env s1 ops

/-- The step is an inbound clock-sync frame whose handshake succeeds: session
byte, more than two bytes, clock-sync selector, and `clock_sync_reply` returning
`true`. -/
def HandshakeSucceeds {T : Type} (env : Env T) (s : SerialCommsInterface) (op : Op T) : Prop :=
  ∃ now f s1 evs, op = Op.onIncomingData now f ∧ f[0]? = some s.session_id ∧ 2 < f.length ∧
    f[1]? = some env.TIME_SYNC_ID ∧
    clock_sync_reply env now s (f.drop 2) (f.length - 2) = some (true, s1, evs)

/-- Slot `i` of the endpoint table holds a handler. -/
def Occupied (s : SerialCommsInterface) (i : Nat) : Prop :=
  ∃ h, s.endpoints[i]? = some (some h)

/-- The two states agree on everything except, possibly, the link state. -/
def DifferOnlyInLinkState (s1 s2 : SerialCommsInterface) : Prop :=
  s2 = { s1 with driverState := s2.driverState }

/-- The high-water mark invariant: table of `MAX_ENDPOINTS` slots, every
occupied slot below the mark, the mark zero or one past an occupied slot, and
the mark within the table. -/
def MarkInv {T : Type} (env : Env T) (s : SerialCommsInterface) : Prop :=
  s.endpoints.length = env.MAX_ENDPOINTS ∧ (∀ i, Occupied s i → i < s.max_stream_record) ∧
    (s.max_stream_record = 0 ∨ Occupied s (s.max_stream_record - 1)) ∧
    s.max_stream_record ≤ env.MAX_ENDPOINTS

/-- While the buffer is reserved its first byte is the session identifier. -/
def HeaderHeld (s : SerialCommsInterface) : Prop :=
  s.txBufferLocked = true → s.txBuffer[0]? = some s.session_id

/-- The content of `txBuffer` after a clock-sync reply to `req` has been built
in it: the two header bytes, the request bytes, the serialised local time, and
behind them the bytes that were there before. -/
def replyBuffer {T : Type} (env : Env T) (now : T)
    (s : SerialCommsInterface) (req : List Nat) : List Nat :=
  s.session_id :: env.TIME_SYNC_ID ::
    (req ++ env.serialize now ++ s.txBuffer.drop (2 + req.length + (env.serialize now).length))

/-- A sample instantiation with the default template arguments
(`TX_MTU = 256`, `MAX_ENDPOINTS = 64`), sample service identifiers, and a
codec whose timestamps occupy eight bytes on the wire. -/
def demoEnv : Env Nat :=
  { TX_MTU := 256
    MAX_ENDPOINTS := 64
    RESET_ID := 254
    TIME_SYNC_ID := 255
    deserialize := fun _ => 8
    serialize := fun t =>
      [t % 256, t / 256 % 256, t / 65536 % 256, t / 16777216 % 256, 0, 0, 0, 0] }

/-- A freshly constructed interface of `demoEnv` with session identifier 7. -/
def demoInit : SerialCommsInterface :=
  construct demoEnv 7 (List.replicate 256 0) (fun _ => 0)

/-- Session 7, endpoint object at address 100 registered at stream 3, link
`RUNNING`, transmit buffer free. -/
def demoRunning : SerialCommsInterface :=
  { txBuffer := List.replicate 256 0
    txBufferLocked := false
    endpoints := (List.replicate 64 none).set 3 (some 100)
    max_stream_record := 4
    driverState := NodeState.RUNNING
    session_id := 7
    endpoint_stream_id := Function.update (fun _ => 0) 100 3 }

/-- The instantiation `demoEnv` with an 8-byte transmit buffer
(`TX_MTU = 8`). -/
def smallEnv : Env Nat :=
  { demoEnv with TX_MTU := 8 }

/-- A freshly constructed interface of `smallEnv` with session identifier 7. -/
def smallInit : SerialCommsInterface :=
  construct smallEnv 7 (List.replicate 8 0) (fun _ => 0)

/-- A clock-sync request of `demoEnv`: session 7, an eight-byte timestamp. -/
def demoSyncFrame : List Nat :=
  [7, 255, 1, 2, 3, 4, 5, 6, 7, 8]

/-- The instantiation `demoEnv` with the service identifiers inside the
endpoint range: clock-sync identifier 3, reset identifier 5. -/
def collideEnv : Env Nat :=
  { demoEnv with TIME_SYNC_ID := 3, RESET_ID := 5 }

/-- Session 7, `RUNNING`, with a handler at address 105 registered at
stream 5 (and nothing else registered). -/
def demoRunningAt5 : SerialCommsInterface :=
  { demoRunning with
    endpoints := (List.replicate 64 none).set 5 (some 105)
    max_stream_record := 6 }

/-! ## Auxiliary facts -/

theorem getD_eq_of_getElem? {f : List Nat} {i k : Nat} (h : f[i]? = some k) :
    f.getD i 0 = k := by
  simp [List.getD_eq_getElem?_getD, h]

theorem getElem?_getD_of_lt {f : List Nat} {i : Nat} (h : i < f.length) :
    f[i]? = some (f.getD i 0) := by
  simp [List.getD_eq_getElem?_getD, List.getElem?_eq_getElem h]

theorem store_of_lt {buf : List Nat} {i : Nat} (v : Nat) (h : i < buf.length) :
    store buf i v = some (buf.set i v) := by
  simp [store, h]

theorem storeAll_eq (vs : List Nat) : ∀ (buf : List Nat) (i : Nat),
    i + vs.length ≤ buf.length →
    storeAll buf i vs = some (buf.take i ++ vs ++ buf.drop (i + vs.length)) := by
  induction vs with
  | nil => intro buf i _; simp [storeAll]
  | cons v vs ih =>
    intro buf i h
    have hi : i < buf.length := by simp at h; omega
    rw [storeAll, store_of_lt v hi]
    simp only
    rw [ih _ _ (by simp at h ⊢; omega)]
    congr 1
    rw [List.set_eq_take_append_cons_drop, if_pos hi]
    have h1 : (List.take i buf).length = i := by simp; omega
    rw [List.take_append_eq_append_take, List.drop_append_eq_append_drop]
    have e1 : i + 1 + vs.length - i = vs.length + 1 := by omega
    have e2 : List.drop (i + 1 + vs.length) (List.take i buf) = [] := by
      apply List.drop_eq_nil_of_le; omega
    have e3 : List.take (i + 1) (List.take i buf) = List.take i buf := by
      rw [List.take_take]; congr 1; omega
    simp only [h1, e1, e2, e3, List.drop_succ_cons, List.drop_drop, List.length_cons,
      List.append_assoc, List.cons_append, List.nil_append]
    have e4 : i + 1 - i = 1 := by omega
    have e5 : i + (vs.length + 1) = i + 1 + vs.length := by omega
    simp [e4, e5]

theorem copyLoop_eq (req : List Nat) : ∀ (count n ptr : Nat) (buf : List Nat),
    n + count ≤ req.length →
    copyLoop req count n ptr buf
      = (storeAll buf ptr ((req.drop n).take count)).map (fun b => (b, ptr + count)) := by
  intro count
  induction count with
  | zero => intro n ptr buf _; simp [copyLoop, storeAll]
  | succ c ih =>
    intro n ptr buf h
    have hn : n < req.length := by omega
    rw [List.drop_eq_getElem_cons hn]
    simp only [List.take_succ_cons, storeAll, copyLoop]
    have : req.getD n 0 = req[n] := by
      simp [List.getD_eq_getElem?_getD, List.getElem?_eq_getElem hn]
    rw [this]
    cases store buf ptr req[n] with
    | none => simp
    | some b => simp [ih (n+1) (ptr+1) b (by omega), Nat.add_assoc, Nat.add_comm 1]


theorem getEndpointBuffer_locked (s : SerialCommsInterface) (stream_id : Nat)
    (hlock : s.txBufferLocked = true) : getEndpointBuffer s stream_id = some (none, s) := by
  simp [getEndpointBuffer, hlock]

theorem getEndpointBuffer_free (s : SerialCommsInterface) (stream_id : Nat)
    (hfree : s.txBufferLocked = false) (hbuf : 2 ≤ s.txBuffer.length) :
    getEndpointBuffer s stream_id
      = some (some 2, { s with txBufferLocked := true
                               txBuffer := s.session_id :: stream_id :: s.txBuffer.drop 2 }) := by
  obtain ⟨tx, lk, eps, m, d, sid, heap⟩ := s
  simp only at hfree hbuf
  subst hfree
  match tx, hbuf with
  | a :: b :: t, _ => simp [getEndpointBuffer, store]

theorem reply_layout (a b : Nat) (req ser buf : List Nat) :
    List.take (2 + req.length)
        (List.take 2 (a :: b :: List.drop 2 buf) ++ req
          ++ List.drop (2 + req.length) (a :: b :: List.drop 2 buf)) ++ ser
      ++ List.drop (2 + req.length + ser.length)
        (List.take 2 (a :: b :: List.drop 2 buf) ++ req
          ++ List.drop (2 + req.length) (a :: b :: List.drop 2 buf))
      = a :: b :: (req ++ ser ++ List.drop (2 + req.length + ser.length) buf) := by
  have e1 : 2 + req.length = req.length + 1 + 1 := by omega
  have e2 : 2 + req.length + ser.length = (req.length + ser.length) + 1 + 1 := by omega
  have h0 : List.take 2 (a :: b :: List.drop 2 buf) = [a, b] := by simp
  have h1 : List.drop (2 + req.length) (a :: b :: List.drop 2 buf)
      = List.drop (2 + req.length) buf := by
    rw [e1, List.drop_succ_cons, List.drop_succ_cons, List.drop_drop]
    rw [e1]
  rw [h0, h1]
  have h2 : List.take (2 + req.length) ([a, b] ++ req ++ List.drop (2 + req.length) buf)
      = a :: b :: req := by
    rw [e1]
    simp only [List.cons_append, List.nil_append, List.take_succ_cons, List.take_left]
  have h3 : List.drop (2 + req.length + ser.length)
      ([a, b] ++ req ++ List.drop (2 + req.length) buf)
      = List.drop (2 + req.length + ser.length) buf := by
    rw [e2]
    simp only [List.cons_append, List.nil_append, List.drop_succ_cons, List.drop_append,
      List.drop_drop]
    rw [e2]
  rw [h2, h3]
  simp

theorem clock_sync_reply_ok {T : Type} (env : Env T) (now : T)
    (s : SerialCommsInterface) (req : List Nat)
    (hfree : s.txBufferLocked = false)
    (hde : env.deserialize req = req.length)
    (hfit : 2 + req.length + (env.serialize now).length ≤ s.txBuffer.length)
    (hmtu : s.txBuffer.length < 65536) (hL : 1 ≤ req.length) :
    clock_sync_reply env now s req req.length
      = some (true, { s with txBuffer := replyBuffer env now s req, txBufferLocked := false },
          [Event.sendFrame (replyBuffer env now s req)
            (req.length + (env.serialize now).length + 2)]) := by
  unfold clock_sync_reply
  rw [if_neg (by simp [hde]), getEndpointBuffer_free s _ hfree (by omega)]
  simp only
  rw [copyLoop_eq req req.length 0 2 _ (by omega)]
  have hlen : (s.session_id :: env.TIME_SYNC_ID :: List.drop 2 s.txBuffer).length
      = s.txBuffer.length := by simp; omega
  rw [storeAll_eq _ _ _ (by rw [hlen]; simp; omega)]
  simp only [Option.map_some']
  rw [storeAll_eq _ _ _ (by simp; omega)]
  simp only
  have hsz : (2 + req.length + (env.serialize now).length - 2) % 65536
      = req.length + (env.serialize now).length := by
    rw [Nat.mod_eq_of_lt (by omega)]; omega
  rw [hsz]
  unfold returnEndpointBuffer
  rw [if_pos (by omega)]
  simp only [List.drop_zero, List.take_length]
  rw [reply_layout]
  rfl

/-! ## What each operation does when it is defined -/

theorem store_some {buf b : List Nat} {i v : Nat} (h : store buf i v = some b) :
    i < buf.length ∧ b = buf.set i v := by
  unfold store at h
  split at h
  · exact ⟨by assumption, by simpa using h.symm⟩
  · cases h

theorem store_getElem?_ne {buf b : List Nat} {i v j : Nat} (h : store buf i v = some b)
    (hj : j ≠ i) : b[j]? = buf[j]? := by
  obtain ⟨_, rfl⟩ := store_some h
  simp [List.getElem?_set, Ne.symm hj]

theorem storeAll_getElem?_lt (vs : List Nat) : ∀ (buf b : List Nat) (i j : Nat),
    storeAll buf i vs = some b → j < i → b[j]? = buf[j]? := by
  induction vs with
  | nil => intro buf b i j h _; simp [storeAll] at h; rw [h]
  | cons v vs ih =>
    intro buf b i j h hj
    rw [storeAll] at h
    cases hs : store buf i v with
    | none => rw [hs] at h; cases h
    | some b1 =>
      rw [hs] at h
      rw [ih b1 b (i + 1) j h (by omega), store_getElem?_ne hs (by omega)]

theorem copyLoop_getElem?_lt (req : List Nat) : ∀ (count n ptr : Nat) (buf b : List Nat)
    (q j : Nat), copyLoop req count n ptr buf = some (b, q) → j < ptr → b[j]? = buf[j]? := by
  intro count
  induction count with
  | zero => intro n ptr buf b q j h _; simp [copyLoop] at h; rw [h.1]
  | succ c ih =>
    intro n ptr buf b q j h hj
    rw [copyLoop] at h
    cases hs : store buf ptr (req.getD n 0) with
    | none => rw [hs] at h; cases h
    | some b1 =>
      rw [hs] at h
      rw [ih (n + 1) (ptr + 1) b1 b q j h (by omega), store_getElem?_ne hs (by omega)]

theorem copyLoop_ptr (req : List Nat) : ∀ (count n ptr : Nat) (buf b : List Nat) (q : Nat),
    copyLoop req count n ptr buf = some (b, q) → q = ptr + count := by
  intro count
  induction count with
  | zero => intro n ptr buf b q h; simp [copyLoop] at h; omega
  | succ c ih =>
    intro n ptr buf b q h
    rw [copyLoop] at h
    cases hs : store buf ptr (req.getD n 0) with
    | none => rw [hs] at h; cases h
    | some b1 =>
      rw [hs] at h
      have := ih (n + 1) (ptr + 1) b1 b q h
      omega

/-- What a defined `getEndpointBuffer` does. -/
theorem getEndpointBuffer_some {s s1 : SerialCommsInterface} {stream_id : Nat} {p : Option Nat}
    (h : getEndpointBuffer s stream_id = some (p, s1)) :
    (s.txBufferLocked = true ∧ p = none ∧ s1 = s) ∨
      (s.txBufferLocked = false ∧ 2 ≤ s.txBuffer.length ∧ p = some 2 ∧
        s1 = { s with txBufferLocked := true
                      txBuffer := s.session_id :: stream_id :: s.txBuffer.drop 2 }) := by
  cases hl : s.txBufferLocked with
  | true =>
    rw [getEndpointBuffer_locked s stream_id hl] at h
    simp at h
    exact Or.inl ⟨rfl, h.1.symm, h.2.symm⟩
  | false =>
    right
    have hlen : 2 ≤ s.txBuffer.length := by
      unfold getEndpointBuffer at h
      simp only [hl] at h
      cases h0 : store s.txBuffer 0 s.session_id with
      | none => rw [h0] at h; simp at h
      | some b0 =>
        rw [h0] at h
        simp only at h
        cases h1 : store b0 1 stream_id with
        | none => rw [h1] at h; simp at h
        | some b1 =>
          obtain ⟨_, rfl⟩ := store_some h0
          have := (store_some h1).1
          simpa using this
    rw [getEndpointBuffer_free s stream_id hl hlen] at h
    simp at h
    exact ⟨rfl, hlen, h.1.symm, h.2.symm⟩


/-- What a defined `returnEndpointBuffer` hands to the framer. -/
theorem returnEndpointBuffer_events (s : SerialCommsInterface) (n : Nat) :
    (returnEndpointBuffer s n).1 = { s with txBufferLocked := false } ∧
      ((returnEndpointBuffer s n).2 = [] ∨
        (n ≠ 0 ∧ (returnEndpointBuffer s n).2 = [Event.sendFrame s.txBuffer (n + 2)])) := by
  unfold returnEndpointBuffer
  split
  · exact ⟨rfl, Or.inr ⟨by assumption, rfl⟩⟩
  · exact ⟨rfl, Or.inl rfl⟩

/-- What a defined `clock_sync_reply` does. -/
theorem clock_sync_reply_some {T : Type} {env : Env T} {now : T} {s s1 : SerialCommsInterface}
    {req : List Nat} {length : Nat} {ok : Bool} {evs : List Event}
    (h : clock_sync_reply env now s req length = some (ok, s1, evs)) :
    (ok = false ∧ s1 = s ∧ evs = []) ∨
      (ok = true ∧ s.txBufferLocked = false ∧ ∃ b, b[0]? = some s.session_id ∧
        s1 = { s with txBuffer := b, txBufferLocked := false } ∧
        (evs = [] ∨ ∃ n, n ≠ 0 ∧ evs = [Event.sendFrame b (n + 2)])) := by
  unfold clock_sync_reply at h
  split at h
  · simp only [Option.some.injEq, Prod.mk.injEq] at h
    exact Or.inl ⟨h.1.symm, h.2.1.symm, h.2.2.symm⟩
  · cases hg : getEndpointBuffer s env.TIME_SYNC_ID with
    | none => rw [hg] at h; cases h
    | some r =>
      obtain ⟨p, s2⟩ := r
      rcases getEndpointBuffer_some hg with ⟨_, rfl, rfl⟩ | ⟨hfree, hlen, rfl, rfl⟩
      · rw [hg] at h
        simp only [Option.some.injEq, Prod.mk.injEq] at h
        exact Or.inl ⟨h.1.symm, h.2.1.symm, h.2.2.symm⟩
      · rw [hg] at h
        simp only at h
        cases hc : copyLoop req length 0 2
            (s.session_id :: env.TIME_SYNC_ID :: List.drop 2 s.txBuffer) with
        | none => rw [hc] at h; cases h
        | some r1 =>
          obtain ⟨b1, ptr⟩ := r1
          rw [hc] at h
          simp only at h
          cases ha : storeAll b1 ptr (env.serialize now) with
          | none => rw [ha] at h; cases h
          | some b2 =>
            rw [ha] at h
            simp only [Option.some.injEq, Prod.mk.injEq] at h
            obtain ⟨hok, hs1, hev⟩ := h
            have hptr := copyLoop_ptr req _ _ _ _ _ _ hc
            have h0 : b2[0]? = some s.session_id := by
              rw [storeAll_getElem?_lt _ _ _ _ 0 ha (by omega),
                copyLoop_getElem?_lt req _ _ _ _ _ _ 0 hc (by omega)]
              rfl
            refine Or.inr ⟨hok.symm, hfree, b2, h0, ?_, ?_⟩
            · rw [← hs1]; exact (returnEndpointBuffer_events _ _).1
            · rw [← hev]
              rcases (returnEndpointBuffer_events
                ({ s with txBufferLocked := true
                          txBuffer := b2 } : SerialCommsInterface)
                ((ptr + (env.serialize now).length - 2) % 65536)).2 with h1 | ⟨h1, h2⟩
              · exact Or.inl h1
              · exact Or.inr ⟨_, h1, h2⟩

/-- What a defined `reset` does. -/
theorem reset_some {T : Type} {env : Env T} {s s1 : SerialCommsInterface} {evs : List Event}
    (h : reset env s = some (s1, evs)) :
    s.txBufferLocked = false ∧ 3 ≤ s.txBuffer.length ∧
      s1 = { s with txBuffer := s.session_id :: env.RESET_ID :: 0 :: s.txBuffer.drop 3
                    txBufferLocked := false
                    driverState := NodeState.OUT_OF_SYNC } ∧
      evs = [Event.sendFrame (s.session_id :: env.RESET_ID :: 0 :: s.txBuffer.drop 3) 3] := by
  unfold reset at h
  cases hg : getEndpointBuffer s env.RESET_ID with
  | none => rw [hg] at h; cases h
  | some r =>
    obtain ⟨p, s2⟩ := r
    rcases getEndpointBuffer_some hg with ⟨_, rfl, rfl⟩ | ⟨hfree, hlen, rfl, rfl⟩
    · rw [hg] at h; cases h
    · rw [hg] at h
      simp only at h
      cases hs : store (s.session_id :: env.RESET_ID :: List.drop 2 s.txBuffer) 2 0 with
      | none => rw [hs] at h; cases h
      | some b =>
        rw [hs] at h
        obtain ⟨hlt, rfl⟩ := store_some hs
        have hlen3 : 3 ≤ s.txBuffer.length := by simp at hlt; omega
        have hb : (s.session_id :: env.RESET_ID :: List.drop 2 s.txBuffer).set 2 0
            = s.session_id :: env.RESET_ID :: 0 :: s.txBuffer.drop 3 := by
          cases hd : List.drop 2 s.txBuffer with
          | nil => simp [hd] at hlt
          | cons x t =>
            have : List.drop 3 s.txBuffer = t := by
              have := congrArg (List.drop 1) hd
              simpa [List.drop_drop] using this
            simp [this]
        simp only [returnEndpointBuffer, hb] at h
        simp at h
        exact ⟨hfree, hlen3, h.1.symm, h.2.symm⟩


/-- What a defined `registerEndpoint` does. -/
theorem registerEndpoint_some {T : Type} {env : Env T} {s s1 : SerialCommsInterface}
    {endpoint : Option Nat} {stream_id : Nat} {r : Bool}
    (h : registerEndpoint env s endpoint stream_id = some (r, s1)) :
    (r = false ∧ s1 = s ∧ (env.MAX_ENDPOINTS ≤ stream_id ∨ Occupied s stream_id)) ∨
      (r = true ∧ stream_id < env.MAX_ENDPOINTS ∧ s.endpoints[stream_id]? = some none ∧
        ∃ hh, endpoint = some hh ∧
          s1 = { s with
                 endpoints := s.endpoints.set stream_id (some hh)
                 endpoint_stream_id := Function.update s.endpoint_stream_id hh stream_id
                 max_stream_record :=
                   if stream_id ≥ s.max_stream_record then (stream_id + 1) % 256
                   else s.max_stream_record }) := by
  unfold registerEndpoint at h
  split at h
  · simp only [Option.some.injEq, Prod.mk.injEq] at h
    exact Or.inl ⟨h.1.symm, h.2.symm, Or.inl (by assumption)⟩
  · rename_i hlt
    cases hs : s.endpoints[stream_id]? with
    | none => rw [hs] at h; cases h
    | some slot =>
      rw [hs] at h
      cases slot with
      | some h0 =>
        simp only [Option.some.injEq, Prod.mk.injEq] at h
        exact Or.inl ⟨h.1.symm, h.2.symm, Or.inr ⟨h0, hs⟩⟩
      | none =>
        simp only at h
        cases endpoint with
        | none => cases h
        | some hh =>
          simp only at h
          refine Or.inr ⟨?_, by omega, rfl, hh, rfl, ?_⟩
          · split at h <;> simp only [Option.some.injEq, Prod.mk.injEq] at h <;> exact h.1.symm
          · split at h <;> rename_i hc <;> simp only [Option.some.injEq, Prod.mk.injEq] at h
            · rw [← h.2, if_pos hc]
            · rw [← h.2, if_neg hc]

/-- What a defined `onIncomingData` does: either the state is returned as it
was, with at most one handler call and nothing handed to the framer, or a
clock-sync handshake succeeded. -/
theorem onIncomingData_some {T : Type} {env : Env T} {now : T} {s s1 : SerialCommsInterface}
    {f : List Nat} {evs : List Event}
    (h : onIncomingData env now s f f.length = some (s1, evs)) :
    (s1 = s ∧ (evs = [] ∨ ∃ hh p l, evs = [Event.spin hh p l])) ∨
      (HandshakeSucceeds env s (Op.onIncomingData now f) ∧ s.txBufferLocked = false ∧
        ∃ b, b[0]? = some s.session_id ∧
          s1 = { s with txBuffer := b, txBufferLocked := false
                        driverState := NodeState.RUNNING } ∧
          (evs = [] ∨ ∃ n, n ≠ 0 ∧ evs = [Event.sendFrame b (n + 2)])) := by
  unfold onIncomingData at h
  split at h
  · simp only [Option.some.injEq, Prod.mk.injEq] at h
    exact Or.inl ⟨h.1.symm, Or.inl h.2.symm⟩
  · rename_i hg
    have hlen : 2 < f.length := by omega
    have hsid : f[0]? = some s.session_id := by
      rw [getElem?_getD_of_lt (by omega)]
      by_contra hne
      exact hg (Or.inl (fun e => hne (by rw [e])))
    split at h
    · rename_i hts
      cases hc : clock_sync_reply env now s (List.drop 2 f) (f.length - 2) with
      | none => rw [hc] at h; cases h
      | some r =>
        obtain ⟨ok, s2, evs2⟩ := r
        rw [hc] at h
        rcases clock_sync_reply_some hc with ⟨rfl, rfl, rfl⟩ | ⟨rfl, hfree, b, hb, rfl, hev⟩
        · simp only [Option.some.injEq, Prod.mk.injEq] at h
          exact Or.inl ⟨h.1.symm, Or.inl h.2.symm⟩
        · simp only [Option.some.injEq, Prod.mk.injEq] at h
          refine Or.inr
            ⟨⟨now, f, _, _, rfl, hsid, hlen, ?_, hc⟩, hfree, b, hb, h.1.symm, ?_⟩
          · rw [getElem?_getD_of_lt (by omega), hts]
          · rw [← h.2]; exact hev
    · split at h
      · simp only [Option.some.injEq, Prod.mk.injEq] at h
        exact Or.inl ⟨h.1.symm, Or.inl h.2.symm⟩
      · split at h
        · simp only [Option.some.injEq, Prod.mk.injEq] at h
          exact Or.inl ⟨h.1.symm, Or.inr ⟨_, _, _, h.2.symm⟩⟩
        · cases h

/-- What a defined `fillRegion` does. -/
theorem fillRegion_some {s s1 : SerialCommsInterface} {ptr : Nat} {bytes : List Nat}
    (h : fillRegion s ptr bytes = some s1) :
    ∃ b, storeAll s.txBuffer ptr bytes = some b ∧ s1 = { s with txBuffer := b } := by
  unfold fillRegion at h
  cases hs : storeAll s.txBuffer ptr bytes with
  | none => rw [hs] at h; cases h
  | some b =>
    rw [hs] at h
    simp only [Option.some.injEq] at h
    exact ⟨b, rfl, h.symm⟩

/-- A defined step either leaves the endpoint table, the high-water mark, the
session identifier and the endpoint objects alone, or is a successful
registration. -/
theorem step_registry {T : Type} {env : Env T} {s s1 : SerialCommsInterface} {op : Op T}
    {evs : List Event} (h : step env s op = some (s1, evs)) :
    (s1.endpoints = s.endpoints ∧ s1.max_stream_record = s.max_stream_record ∧
        s1.session_id = s.session_id ∧ s1.endpoint_stream_id = s.endpoint_stream_id) ∨
      (∃ hh stream_id, op = Op.registerEndpoint (some hh) stream_id ∧
        stream_id < env.MAX_ENDPOINTS ∧ s.endpoints[stream_id]? = some none ∧
        s1 = { s with
               endpoints := s.endpoints.set stream_id (some hh)
               endpoint_stream_id := Function.update s.endpoint_stream_id hh stream_id
               max_stream_record :=
                 if stream_id ≥ s.max_stream_record then (stream_id + 1) % 256
                 else s.max_stream_record }) := by
  cases op with
  | getEndpointBuffer stream_id =>
    simp only [step] at h
    cases hg : getEndpointBuffer s stream_id with
    | none => rw [hg] at h; cases h
    | some r =>
      obtain ⟨p, s2⟩ := r
      rw [hg] at h
      simp only [Option.some.injEq, Prod.mk.injEq] at h
      obtain ⟨rfl, _⟩ := h
      rcases getEndpointBuffer_some hg with ⟨_, _, rfl⟩ | ⟨_, _, _, rfl⟩ <;>
        exact Or.inl ⟨rfl, rfl, rfl, rfl⟩
  | fill offset bytes =>
    simp only [step] at h
    cases hg : fillRegion s (2 + offset) bytes with
    | none => rw [hg] at h; cases h
    | some s2 =>
      rw [hg] at h
      simp only [Option.some.injEq, Prod.mk.injEq] at h
      obtain ⟨rfl, _⟩ := h
      obtain ⟨b, _, rfl⟩ := fillRegion_some hg
      exact Or.inl ⟨rfl, rfl, rfl, rfl⟩
  | returnEndpointBuffer size =>
    simp only [step, Option.some.injEq] at h
    have := (returnEndpointBuffer_events s size).1
    rw [h] at this
    simp only at this
    rw [this]
    exact Or.inl ⟨rfl, rfl, rfl, rfl⟩
  | registerEndpoint endpoint stream_id =>
    simp only [step] at h
    cases hg : registerEndpoint env s endpoint stream_id with
    | none => rw [hg] at h; cases h
    | some r =>
      obtain ⟨ok, s2⟩ := r
      rw [hg] at h
      simp only [Option.some.injEq, Prod.mk.injEq] at h
      obtain ⟨rfl, _⟩ := h
      rcases registerEndpoint_some hg with ⟨_, rfl, _⟩ | ⟨_, hlt, hslot, hh, rfl, rfl⟩
      · exact Or.inl ⟨rfl, rfl, rfl, rfl⟩
      · exact Or.inr ⟨hh, stream_id, rfl, hlt, hslot, rfl⟩
  | reset =>
    simp only [step] at h
    obtain ⟨_, _, rfl, _⟩ := reset_some h
    exact Or.inl ⟨rfl, rfl, rfl, rfl⟩
  | onIncomingData now frame =>
    simp only [step] at h
    rcases onIncomingData_some h with ⟨rfl, _⟩ | ⟨_, _, b, _, rfl, _⟩ <;>
      exact Or.inl ⟨rfl, rfl, rfl, rfl⟩

/-- A property kept by every defined step holds after every defined run. -/
theorem run_invariant {T : Type} (env : Env T) (P : SerialCommsInterface → Prop)
    (hstep : ∀ s op s1 evs, P s → step env s op = some (s1, evs) → P s1) :
    ∀ (ops : List (Op T)) (s s2 : SerialCommsInterface) (evs : List Event),
      P s → run env s ops = some (s2, evs) → P s2 := by
  intro ops
  induction ops with
  | nil =>
    intro s s2 evs hp h
    simp only [run, Option.some.injEq, Prod.mk.injEq] at h
    rw [← h.1]; exact hp
  | cons op ops ih =>
    intro s s2 evs hp h
    rw [run] at h
    cases hs : step env s op with
    | none => rw [hs] at h; cases h
    | some r =>
      obtain ⟨s1, e1⟩ := r
      rw [hs] at h
      simp only at h
      cases hr : run env s1 ops with
      | none => rw [hr] at h; cases h
      | some r2 =>
        obtain ⟨s3, e2⟩ := r2
        rw [hr] at h
        simp only [Option.some.injEq, Prod.mk.injEq] at h
        rw [← h.1]
        exact ih s1 s3 e2 (hstep s op s1 e1 hp hs) hr

theorem markInv_construct {T : Type} (env : Env T) (sessionId : Nat) (tx : List Nat)
    (heap : Nat → Nat) : MarkInv env (construct env sessionId tx heap) := by
  refine ⟨by simp [construct], ?_, Or.inl rfl, Nat.zero_le _⟩
  rintro i ⟨h, hi⟩
  simp only [construct] at hi
  by_cases hlt : i < env.MAX_ENDPOINTS
  · rw [List.getElem?_eq_getElem (by simpa using hlt)] at hi
    simp at hi
  · rw [List.getElem?_eq_none (by simpa using hlt)] at hi
    cases hi

theorem markInv_step {T : Type} (env : Env T) (hmax : env.MAX_ENDPOINTS < 256)
    (s : SerialCommsInterface) (op : Op T) (s1 : SerialCommsInterface) (evs : List Event)
    (hinv : MarkInv env s) (h : step env s op = some (s1, evs)) : MarkInv env s1 := by
  obtain ⟨hlen, hbelow, htop, hle⟩ := hinv
  rcases step_registry h with ⟨he, hm, _, _⟩ | ⟨hh, id, _, hlt, hslot, rfl⟩
  · unfold MarkInv Occupied at *
    rw [he, hm]
    exact ⟨hlen, hbelow, htop, hle⟩
  · have hmod : (id + 1) % 256 = id + 1 := Nat.mod_eq_of_lt (by omega)
    have hid : id < s.endpoints.length := by omega
    refine ⟨by simp [hlen], ?_, ?_, ?_⟩
    · rintro i ⟨h0, hi⟩
      simp only at hi ⊢
      by_cases hij : i = id
      · subst hij
        split
        · omega
        · omega
      · have : Occupied s i := ⟨h0, by simpa [List.getElem?_set, Ne.symm hij] using hi⟩
        have := hbelow i this
        split
        · omega
        · exact this
    · right
      simp only
      split
      · rw [hmod]
        exact ⟨hh, by simp [List.getElem?_set, hid]⟩
      · rename_i hc
        rcases htop with h0 | ⟨h0, hocc⟩
        · omega
        · have hne : id ≠ s.max_stream_record - 1 := by
            intro e
            rw [← e, hslot] at hocc
            cases hocc
          exact ⟨h0, by simpa [List.getElem?_set, hne] using hocc⟩
    · simp only
      split
      · omega
      · exact hle

/-- A frame for an occupied slot below the mark, in `RUNNING`, goes to the
handler stored in that slot. -/
theorem onIncomingData_to_occupied_slot {T : Type} (env : Env T) (now : T)
    (s : SerialCommsInterface) (f : List Nat) (k h : Nat)
    (hrun : s.driverState = NodeState.RUNNING) (hlen : 2 < f.length)
    (hsid : f[0]? = some s.session_id) (hk : f[1]? = some k)
    (hts : k ≠ env.TIME_SYNC_ID) (hmark : k < s.max_stream_record)
    (hslot : s.endpoints[k]? = some (some h)) :
    onIncomingData env now s f f.length
      = some (s, [Event.spin h (f.drop 2) (f.length - 2)]) := by
  unfold onIncomingData
  rw [getD_eq_of_getElem? hsid, getD_eq_of_getElem? hk]
  rw [if_neg (by omega), if_neg hts, if_neg (by simp [hrun]; omega)]
  simp [hslot]

/-- A slot that holds a handler below the mark keeps both properties over
every defined step. -/
theorem slot_kept_by_step {T : Type} (env : Env T) (hmax : env.MAX_ENDPOINTS < 256)
    (k h : Nat) (s : SerialCommsInterface) (op : Op T) (s1 : SerialCommsInterface)
    (evs : List Event)
    (hp : s.endpoints[k]? = some (some h) ∧ k < s.max_stream_record)
    (hs : step env s op = some (s1, evs)) :
    s1.endpoints[k]? = some (some h) ∧ k < s1.max_stream_record := by
  rcases step_registry hs with ⟨he, hm, _, _⟩ | ⟨hh, id, _, hlt, hslot, rfl⟩
  · rw [he, hm]; exact hp
  · have hne : id ≠ k := by
      intro e
      rw [e, hp.1] at hslot
      cases hslot
    refine ⟨by simpa [List.getElem?_set, hne] using hp.1, ?_⟩
    simp only
    split
    · rw [Nat.mod_eq_of_lt (by omega)]; omega
    · exact hp.2

/-- A clock-sync reply that fits the transmit buffer is always defined. -/
theorem clock_sync_reply_defined {T : Type} (env : Env T) (now : T)
    (s : SerialCommsInterface) (req : List Nat)
    (hfit : s.txBufferLocked = true ∨
      2 + req.length + (env.serialize now).length ≤ s.txBuffer.length) :
    ∃ r, clock_sync_reply env now s req req.length = some r := by
  unfold clock_sync_reply
  split
  · exact ⟨_, rfl⟩
  · cases hl : s.txBufferLocked with
    | true => rw [getEndpointBuffer_locked s _ hl]; exact ⟨_, rfl⟩
    | false =>
      have hfit2 : 2 + req.length + (env.serialize now).length ≤ s.txBuffer.length := by
        rcases hfit with h | h
        · rw [hl] at h; cases h
        · exact h
      rw [getEndpointBuffer_free s _ hl (by omega)]
      simp only
      rw [copyLoop_eq req req.length 0 2 _ (by omega)]
      have hlen : (s.session_id :: env.TIME_SYNC_ID :: List.drop 2 s.txBuffer).length
          = s.txBuffer.length := by simp; omega
      rw [storeAll_eq _ _ _ (by rw [hlen]; simp; omega)]
      simp only [Option.map_some']
      rw [storeAll_eq _ _ _ (by simp; omega)]
      exact ⟨_, rfl⟩

/-- A defined step that respects the release discipline keeps `HeaderHeld` and
the session identifier, and every frame it hands to the framer has a byte count
of at least 3 and the session identifier as its first byte. -/
theorem step_header {T : Type} (env : Env T) (s s1 : SerialCommsInterface) (op : Op T)
    (evs : List Event) (hinv : HeaderHeld s)
    (hheld : ∀ n, op = Op.returnEndpointBuffer n → n ≠ 0 → s.txBufferLocked = true)
    (h : step env s op = some (s1, evs)) :
    HeaderHeld s1 ∧ s1.session_id = s.session_id ∧
      ∀ b n, Event.sendFrame b n ∈ evs → 3 ≤ n ∧ b[0]? = some s.session_id := by
  cases op with
  | getEndpointBuffer stream_id =>
    simp only [step] at h
    cases hg : getEndpointBuffer s stream_id with
    | none => rw [hg] at h; cases h
    | some r =>
      obtain ⟨p, s2⟩ := r
      rw [hg] at h
      simp only [Option.some.injEq, Prod.mk.injEq] at h
      obtain ⟨rfl, rfl⟩ := h
      rcases getEndpointBuffer_some hg with ⟨_, _, rfl⟩ | ⟨_, _, _, rfl⟩
      · exact ⟨hinv, rfl, by simp⟩
      · refine ⟨?_, rfl, by simp⟩
        intro _; rfl
  | fill offset bytes =>
    simp only [step] at h
    cases hg : fillRegion s (2 + offset) bytes with
    | none => rw [hg] at h; cases h
    | some s2 =>
      rw [hg] at h
      simp only [Option.some.injEq, Prod.mk.injEq] at h
      obtain ⟨rfl, rfl⟩ := h
      obtain ⟨b, hb, rfl⟩ := fillRegion_some hg
      refine ⟨?_, rfl, by simp⟩
      intro hl
      show b[0]? = some s.session_id
      rw [storeAll_getElem?_lt _ _ _ _ 0 hb (by omega)]
      exact hinv hl
  | returnEndpointBuffer size =>
    simp only [step, Option.some.injEq] at h
    have h1 := (returnEndpointBuffer_events s size).1
    have h2 := (returnEndpointBuffer_events s size).2
    rw [h] at h1 h2
    simp only at h1 h2
    subst h1
    refine ⟨?_, rfl, ?_⟩
    · intro hl; cases hl
    intro b n hmem
    rcases h2 with rfl | ⟨hne, rfl⟩
    · simp at hmem
    · simp only [List.mem_singleton, Event.sendFrame.injEq] at hmem
      obtain ⟨rfl, rfl⟩ := hmem
      exact ⟨by omega, hinv (hheld size rfl hne)⟩
  | registerEndpoint endpoint stream_id =>
    simp only [step] at h
    cases hg : registerEndpoint env s endpoint stream_id with
    | none => rw [hg] at h; cases h
    | some r =>
      obtain ⟨ok, s2⟩ := r
      rw [hg] at h
      simp only [Option.some.injEq, Prod.mk.injEq] at h
      obtain ⟨rfl, rfl⟩ := h
      rcases registerEndpoint_some hg with ⟨_, rfl, _⟩ | ⟨_, _, _, hh, _, rfl⟩
      · exact ⟨hinv, rfl, by simp⟩
      · exact ⟨hinv, rfl, by simp⟩
  | reset =>
    simp only [step] at h
    obtain ⟨_, _, rfl, rfl⟩ := reset_some h
    refine ⟨?_, rfl, ?_⟩
    · intro hl; cases hl
    intro b n hmem
    simp only [List.mem_singleton, Event.sendFrame.injEq] at hmem
    obtain ⟨rfl, rfl⟩ := hmem
    exact ⟨by omega, rfl⟩
  | onIncomingData now frame =>
    simp only [step] at h
    rcases onIncomingData_some h with ⟨rfl, hev⟩ | ⟨_, _, b, hb, rfl, hev⟩
    · refine ⟨hinv, rfl, ?_⟩
      intro b n hmem
      rcases hev with rfl | ⟨hh, p, l, rfl⟩ <;> simp at hmem
    · refine ⟨?_, rfl, ?_⟩
      · intro hl; cases hl
      intro b' n hmem
      rcases hev with rfl | ⟨m, hm, rfl⟩
      · simp at hmem
      · simp only [List.mem_singleton, Event.sendFrame.injEq] at hmem
        obtain ⟨rfl, rfl⟩ := hmem
        exact ⟨by omega, hb⟩

/-- The frames of a defined, disciplined run started with `HeaderHeld`. -/
theorem run_header {T : Type} (env : Env T) : ∀ (ops : List (Op T))
    (s s2 : SerialCommsInterface) (evs : List Event), HeaderHeld s →
    ReleasesHeld env s ops → run env s ops = some (s2, evs) →
    ∀ b n, Event.sendFrame b n ∈ evs → 3 ≤ n ∧ b[0]? = some s.session_id := by
  intro ops
  induction ops with
  | nil =>
    intro s s2 evs _ _ h b n hmem
    simp only [run, Option.some.injEq, Prod.mk.injEq] at h
    rw [← h.2] at hmem
    simp at hmem
  | cons op ops ih =>
    intro s s2 evs hinv hheld h b n hmem
    rw [run] at h
    cases hs : step env s op with
    | none => rw [hs] at h; cases h
    | some r =>
      obtain ⟨s1, e1⟩ := r
      rw [hs] at h
      simp only at h
      cases hr : run env s1 ops with
      | none => rw [hr] at h; cases h
      | some r2 =>
        obtain ⟨s3, e2⟩ := r2
        rw [hr] at h
        simp only [Option.some.injEq, Prod.mk.injEq] at h
        obtain ⟨_, rfl⟩ := h
        obtain ⟨hd, htl⟩ := hheld
        rw [hs] at htl
        obtain ⟨hinv1, hsid, hev⟩ := step_header env s s1 op e1 hinv hd hs
        rcases List.mem_append.mp hmem with hm | hm
        · exact hev b n hm
        · rw [← hsid]
          exact ih s1 s3 e2 hinv1 htl hr b n hm

/-- On a reserved buffer `reset` has no defined result: it stores through the
null pointer `getEndpointBuffer` returned. -/
theorem reset_reserved_undefined {T : Type} (env : Env T) (s : SerialCommsInterface)
    (hlock : s.txBufferLocked = true) : reset env s = none := by
  unfold reset
  rw [getEndpointBuffer_locked s _ hlock]

/-- While the buffer is reserved, a defined step other than
`returnEndpointBuffer` and the holder's own `fill` keeps it reserved, leaves
every buffer byte as it was and hands nothing to the framer. -/
theorem reserved_kept_by_other_operations {T : Type} (env : Env T)
    (s s1 : SerialCommsInterface) (op : Op T) (evs : List Event)
    (hlock : s.txBufferLocked = true) (h : step env s op = some (s1, evs))
    (hret : ∀ n, op ≠ Op.returnEndpointBuffer n) (hfill : ∀ o b, op ≠ Op.fill o b) :
    s1.txBufferLocked = true ∧ s1.txBuffer = s.txBuffer ∧
      ∀ b n, Event.sendFrame b n ∉ evs := by
  cases op with
  | getEndpointBuffer stream_id =>
    simp only [step, getEndpointBuffer_locked s stream_id hlock, Option.some.injEq,
      Prod.mk.injEq] at h
    obtain ⟨rfl, rfl⟩ := h
    exact ⟨hlock, rfl, by simp⟩
  | fill offset bytes => exact absurd rfl (hfill offset bytes)
  | returnEndpointBuffer size => exact absurd rfl (hret size)
  | registerEndpoint endpoint stream_id =>
    simp only [step] at h
    cases hg : registerEndpoint env s endpoint stream_id with
    | none => rw [hg] at h; cases h
    | some r =>
      obtain ⟨ok, s2⟩ := r
      rw [hg] at h
      simp only [Option.some.injEq, Prod.mk.injEq] at h
      obtain ⟨rfl, rfl⟩ := h
      rcases registerEndpoint_some hg with ⟨_, rfl, _⟩ | ⟨_, _, _, hh, _, rfl⟩
      · exact ⟨hlock, rfl, by simp⟩
      · exact ⟨hlock, rfl, by simp⟩
  | reset =>
    simp only [step, reset_reserved_undefined env s hlock] at h
    cases h
  | onIncomingData now frame =>
    simp only [step] at h
    rcases onIncomingData_some h with ⟨rfl, hev⟩ | ⟨_, hfree, _⟩
    · refine ⟨hlock, rfl, ?_⟩
      intro b n hmem
      rcases hev with rfl | ⟨hh, p, l, rfl⟩ <;> simp at hmem
    · rw [hlock] at hfree; cases hfree

theorem getEndpointBuffer_with_driverState (s : SerialCommsInterface) (d : NodeState)
    (stream_id : Nat) :
    getEndpointBuffer { s with driverState := d } stream_id
      = (getEndpointBuffer s stream_id).map
          (fun r => (r.1, { r.2 with driverState := d })) := by
  unfold getEndpointBuffer
  simp only
  split
  · rfl
  · cases store s.txBuffer 0 s.session_id with
    | none => rfl
    | some b0 =>
      simp only
      cases store b0 1 stream_id with
      | none => rfl
      | some b1 => rfl

theorem clock_sync_reply_with_driverState {T : Type} (env : Env T) (now : T)
    (s : SerialCommsInterface) (d : NodeState) (req : List Nat) (length : Nat) :
    clock_sync_reply env now { s with driverState := d } req length
      = (clock_sync_reply env now s req length).map
          (fun r => (r.1, { r.2.1 with driverState := d }, r.2.2)) := by
  unfold clock_sync_reply
  split
  · rfl
  · rw [getEndpointBuffer_with_driverState]
    cases getEndpointBuffer s env.TIME_SYNC_ID with
    | none => rfl
    | some r =>
      obtain ⟨p, s1⟩ := r
      cases p with
      | none => rfl
      | some txBuff =>
        simp only [Option.map_some']
        cases copyLoop req length 0 txBuff s1.txBuffer with
        | none => rfl
        | some r1 =>
          obtain ⟨b1, ptr⟩ := r1
          simp only
          cases storeAll b1 ptr (env.serialize now) with
          | none => rfl
          | some b2 =>
            simp only [returnEndpointBuffer]
            split <;> rfl

/-! ## The inbound dispatcher -/

/-- C1: a frame whose first byte is not the session identifier, or whose length
is at most 2 (the empty frame included), has no effect: the whole state is
returned unchanged and no call is made to a handler or to the framer. -/
theorem onIncomingData_foreign_or_short {T : Type} (env : Env T) (now : T)
    (s : SerialCommsInterface) (f : List Nat)
    (h : f.head? ≠ some s.session_id ∨ f.length ≤ 2) :
    onIncomingData env now s f f.length = some (s, []) := by
  unfold onIncomingData
  rw [if_pos]
  rcases h with h | h
  · cases f with
    | nil => right; simp
    | cons a t =>
      left
      simpa using h
  · exact Or.inr h

theorem onIncomingData_foreign_or_short_witness :
    ([9, 3, 0x42].head? ≠ some demoRunning.session_id ∨ [9, 3, 0x42].length ≤ 2) ∧
      onIncomingData demoEnv 0 demoRunning [9, 3, 0x42] [9, 3, 0x42].length
        = some (demoRunning, []) :=
  ⟨by decide, onIncomingData_foreign_or_short demoEnv 0 demoRunning [9, 3, 0x42] (by decide)⟩

/-- C2: while `RUNNING`, a frame longer than 2 bytes with the session byte, whose
selector `k` is not the clock-sync identifier, is below the high-water mark and
has slot `k` occupied by `h`, makes exactly one call, `h->spin` on the frame
bytes from offset 2 with length `frame length - 2` (which is the number of those
bytes), and returns the state unchanged. -/
theorem onIncomingData_dispatches {T : Type} (env : Env T) (now : T)
    (s : SerialCommsInterface) (f : List Nat) (k h : Nat)
    (hrun : s.driverState = NodeState.RUNNING) (hlen : 2 < f.length)
    (hsid : f[0]? = some s.session_id) (hk : f[1]? = some k)
    (hts : k ≠ env.TIME_SYNC_ID) (hmark : k < s.max_stream_record)
    (hslot : s.endpoints[k]? = some (some h)) :
    onIncomingData env now s f f.length
        = some (s, [Event.spin h (f.drop 2) (f.length - 2)]) ∧
      (f.drop 2).length = f.length - 2 := by
  refine ⟨?_, by simp⟩
  unfold onIncomingData
  rw [getD_eq_of_getElem? hsid, getD_eq_of_getElem? hk]
  rw [if_neg (by omega), if_neg hts, if_neg (by simp [hrun]; omega)]
  simp [hslot]

theorem onIncomingData_dispatches_witness :
    onIncomingData demoEnv 0 demoRunning [7, 3, 0x42] 3
        = some (demoRunning, [Event.spin 100 [0x42] 1]) ∧
      ([7, 3, 0x42].drop 2).length = 3 - 2 :=
  onIncomingData_dispatches demoEnv 0 demoRunning [7, 3, 0x42] 3 100
    rfl (by decide) rfl rfl (by decide) (by decide) rfl

/-- C3: while `OUT_OF_SYNC`, a frame whose selector is not the clock-sync
identifier has no effect, whatever the endpoint table holds at that selector:
the whole state is unchanged and no call is made to a handler or to the
framer. -/
theorem onIncomingData_out_of_sync_drops {T : Type} (env : Env T) (now : T)
    (s : SerialCommsInterface) (f : List Nat) (hos : s.driverState = NodeState.OUT_OF_SYNC)
    (hts : f[1]? ≠ some env.TIME_SYNC_ID) :
    onIncomingData env now s f f.length = some (s, []) := by
  unfold onIncomingData
  by_cases h1 : f.getD 0 0 ≠ s.session_id ∨ f.length ≤ 2
  · rw [if_pos h1]
  · rw [if_neg h1]
    have hlen : 1 < f.length := by omega
    rw [getElem?_getD_of_lt hlen] at hts
    rw [if_neg (fun e => hts (by rw [e])), if_pos (Or.inl (by simp [hos]))]

theorem onIncomingData_out_of_sync_drops_witness :
    ({ demoRunning with driverState := NodeState.OUT_OF_SYNC } : SerialCommsInterface).endpoints[3]?
        = some (some 100) ∧
      onIncomingData demoEnv 0 { demoRunning with driverState := NodeState.OUT_OF_SYNC }
          [7, 3, 0x42] [7, 3, 0x42].length
        = some ({ demoRunning with driverState := NodeState.OUT_OF_SYNC }, []) :=
  ⟨rfl, onIncomingData_out_of_sync_drops demoEnv 0
    { demoRunning with driverState := NodeState.OUT_OF_SYNC } [7, 3, 0x42] rfl (by decide)⟩

set_option maxRecDepth 100000 in
/-- C4 (the code departs from the claim): from a fresh interface of session 7,
registering an endpoint at stream 3 and completing a clock-sync handshake gives
a `RUNNING` state with high-water mark 4 and an empty slot 2; the frame
`[7, 2, 0x42]` then passes the high-water guard and the dispatcher dereferences
the null pointer stored in slot 2, so the frame is not dropped silently. -/
theorem onIncomingData_empty_slot_below_mark :
    ∃ s1 s2 evs,
      registerEndpoint demoEnv demoInit (some 100) 3 = some (true, s1) ∧
      onIncomingData demoEnv 0 s1 demoSyncFrame demoSyncFrame.length = some (s2, evs) ∧
      s2.driverState = NodeState.RUNNING ∧ s2.max_stream_record = 4 ∧
      s2.endpoints[2]? = some none ∧ (2 : Nat) ≠ demoEnv.TIME_SYNC_ID ∧
      onIncomingData demoEnv 0 s2 [7, 2, 0x42] [7, 2, 0x42].length = none :=
  ⟨_, _, _, rfl, rfl, rfl, rfl, rfl, by decide, rfl⟩

theorem onIncomingData_at_or_above_mark_drops {T : Type} (env : Env T) (now : T)
    (s : SerialCommsInterface) (f : List Nat) (k : Nat) (hk : f[1]? = some k)
    (hts : k ≠ env.TIME_SYNC_ID) (hmark : s.max_stream_record ≤ k) :
    onIncomingData env now s f f.length = some (s, []) := by
  unfold onIncomingData
  by_cases h1 : f.getD 0 0 ≠ s.session_id ∨ f.length ≤ 2
  · rw [if_pos h1]
  · rw [if_neg h1, getD_eq_of_getElem? hk, if_neg hts, if_pos (Or.inr hmark)]

theorem onIncomingData_null_slot_undefined {T : Type} (env : Env T) (now : T)
    (s : SerialCommsInterface) (f : List Nat) (k : Nat)
    (hrun : s.driverState = NodeState.RUNNING) (hlen : 2 < f.length)
    (hsid : f[0]? = some s.session_id) (hk : f[1]? = some k)
    (hts : k ≠ env.TIME_SYNC_ID) (hmark : k < s.max_stream_record)
    (hslot : s.endpoints[k]? = some none) :
    onIncomingData env now s f f.length = none := by
  unfold onIncomingData
  rw [getD_eq_of_getElem? hsid, getD_eq_of_getElem? hk]
  rw [if_neg (by omega), if_neg hts, if_neg (by simp [hrun]; omega)]
  simp [hslot]

/-- C5 (as amended): when the transmit buffer is free, the request `req` has
`L ≥ 1` bytes, the codec reports `L` consumed bytes, and the reply fits the
buffer (`2 + L + |serialize now| ≤ TX_MTU`, with `TX_MTU` a 16-bit value), the
clock-sync frame `[session_id, TIME_SYNC_ID] ++ req` makes exactly one call, a
`sendFrame` whose bytes are `[session_id, TIME_SYNC_ID] ++ req ++ serialize now`;
the link state becomes `RUNNING`, the buffer is left unreserved, and no handler
is called. -/
theorem onIncomingData_clock_sync_replies {T : Type} (env : Env T) (now : T)
    (s : SerialCommsInterface) (req : List Nat)
    (hfree : s.txBufferLocked = false) (hL : 1 ≤ req.length)
    (hde : env.deserialize req = req.length)
    (hfit : 2 + req.length + (env.serialize now).length ≤ s.txBuffer.length)
    (hmtu : s.txBuffer.length < 65536) :
    onIncomingData env now s (s.session_id :: env.TIME_SYNC_ID :: req)
        (s.session_id :: env.TIME_SYNC_ID :: req).length
      = some ({ s with txBuffer := replyBuffer env now s req
                       txBufferLocked := false
                       driverState := NodeState.RUNNING },
          [Event.sendFrame (replyBuffer env now s req)
            (req.length + (env.serialize now).length + 2)]) ∧
      frameBytes (replyBuffer env now s req) (req.length + (env.serialize now).length + 2)
        = some (s.session_id :: env.TIME_SYNC_ID :: (req ++ env.serialize now)) := by
  constructor
  · unfold onIncomingData
    rw [if_neg (by simp; rintro rfl; simp at hL), if_pos (by simp)]
    have e : (s.session_id :: env.TIME_SYNC_ID :: req).length - 2 = req.length := by simp
    simp only [List.drop_succ_cons, List.drop_zero, e]
    rw [clock_sync_reply_ok env now s req hfree hde hfit hmtu hL]
  · unfold frameBytes replyBuffer
    rw [if_pos (by simp)]
    have e : req.length + (env.serialize now).length + 2
        = (req ++ env.serialize now).length + 1 + 1 := by simp
    rw [e]
    simp only [List.take_succ_cons, ← List.append_assoc, List.take_left]

set_option maxRecDepth 100000 in
theorem onIncomingData_clock_sync_replies_witness :
    onIncomingData demoEnv 5 demoInit (7 :: 255 :: [1, 2, 3, 4, 5, 6, 7, 8]) 10
      = some ({ demoInit with txBuffer := replyBuffer demoEnv 5 demoInit [1, 2, 3, 4, 5, 6, 7, 8]
                              txBufferLocked := false
                              driverState := NodeState.RUNNING },
          [Event.sendFrame (replyBuffer demoEnv 5 demoInit [1, 2, 3, 4, 5, 6, 7, 8]) 18]) ∧
      frameBytes (replyBuffer demoEnv 5 demoInit [1, 2, 3, 4, 5, 6, 7, 8]) 18
        = some [7, 255, 1, 2, 3, 4, 5, 6, 7, 8, 5, 0, 0, 0, 0, 0, 0, 0] :=
  onIncomingData_clock_sync_replies demoEnv 5 demoInit [1, 2, 3, 4, 5, 6, 7, 8]
    rfl (by decide) rfl (by decide) (by decide)

/-- C5 fails as stated: with an 8-byte transmit buffer, free, the clock-sync
frame carrying an eight-byte request that the codec consumes in full needs an
18-byte reply; the copy loop stores the request bytes 6 and 7 past the end of
`txBuffer`, and no reply frame results. -/
theorem onIncomingData_clock_sync_overflows :
    smallInit.txBufferLocked = false ∧ 1 ≤ [1, 2, 3, 4, 5, 6, 7, 8].length ∧
      smallEnv.deserialize [1, 2, 3, 4, 5, 6, 7, 8] = [1, 2, 3, 4, 5, 6, 7, 8].length ∧
      smallInit.txBuffer.length = smallEnv.TX_MTU ∧
      onIncomingData smallEnv 5 smallInit
        (smallInit.session_id :: smallEnv.TIME_SYNC_ID :: [1, 2, 3, 4, 5, 6, 7, 8]) 10 = none :=
  ⟨rfl, by decide, rfl, rfl, rfl⟩


/-! ## The clock-sync handshake: refusals -/

/-- C6: a clock-sync frame with the session byte whose request is not consumed
by the codec in exactly its length has no effect: the link state, the transmit
buffer and its lock flag (the whole state) are unchanged and nothing is handed
to the framer or to a handler. -/
theorem onIncomingData_clock_sync_codec_mismatch {T : Type} (env : Env T) (now : T)
    (s : SerialCommsInterface) (req : List Nat) (hL : 1 ≤ req.length)
    (hde : env.deserialize req ≠ req.length) :
    onIncomingData env now s (s.session_id :: env.TIME_SYNC_ID :: req)
        (s.session_id :: env.TIME_SYNC_ID :: req).length = some (s, []) := by
  unfold onIncomingData
  rw [if_neg (by simp; rintro rfl; simp at hL), if_pos (by simp)]
  have e : (s.session_id :: env.TIME_SYNC_ID :: req).length - 2 = req.length := by simp
  simp only [List.drop_succ_cons, List.drop_zero, e]
  unfold clock_sync_reply
  rw [if_pos (fun h => hde h.symm)]

theorem onIncomingData_clock_sync_codec_mismatch_witness :
    (1 ≤ [1, 2, 3].length ∧ demoEnv.deserialize [1, 2, 3] ≠ [1, 2, 3].length) ∧
      onIncomingData demoEnv 0 demoRunning [7, 255, 1, 2, 3] 5 = some (demoRunning, []) :=
  ⟨by decide, onIncomingData_clock_sync_codec_mismatch demoEnv 0 demoRunning [1, 2, 3]
    (by decide) (by decide)⟩

/-- C7: while the transmit buffer is reserved, a clock-sync request is refused:
`clock_sync_reply` returns `false`, and both it and the dispatcher leave the
whole state as it was (link state, lock flag still set, every buffer byte) and
hand nothing to the framer. -/
theorem clock_sync_reply_refused_when_reserved {T : Type} (env : Env T) (now : T)
    (s : SerialCommsInterface) (req : List Nat) (hlock : s.txBufferLocked = true)
    (hde : env.deserialize req = req.length) :
    clock_sync_reply env now s req req.length = some (false, s, []) ∧
      onIncomingData env now s (s.session_id :: env.TIME_SYNC_ID :: req)
        (s.session_id :: env.TIME_SYNC_ID :: req).length = some (s, []) := by
  have h1 : clock_sync_reply env now s req req.length = some (false, s, []) := by
    unfold clock_sync_reply
    rw [if_neg (by simp [hde]), getEndpointBuffer_locked s _ hlock]
  refine ⟨h1, ?_⟩
  unfold onIncomingData
  by_cases hg : (s.session_id :: env.TIME_SYNC_ID :: req).getD 0 0 ≠ s.session_id ∨
      (s.session_id :: env.TIME_SYNC_ID :: req).length ≤ 2
  · rw [if_pos hg]
  · rw [if_neg hg, if_pos (by simp)]
    have e : (s.session_id :: env.TIME_SYNC_ID :: req).length - 2 = req.length := by simp
    simp only [List.drop_succ_cons, List.drop_zero, e]
    rw [h1]

theorem clock_sync_reply_refused_when_reserved_witness :
    clock_sync_reply demoEnv 0 { demoRunning with txBufferLocked := true }
        [1, 2, 3, 4, 5, 6, 7, 8] 8
      = some (false, { demoRunning with txBufferLocked := true }, []) ∧
    onIncomingData demoEnv 0 { demoRunning with txBufferLocked := true }
        (7 :: 255 :: [1, 2, 3, 4, 5, 6, 7, 8]) 10
      = some ({ demoRunning with txBufferLocked := true }, []) :=
  clock_sync_reply_refused_when_reserved demoEnv 0 { demoRunning with txBufferLocked := true }
    [1, 2, 3, 4, 5, 6, 7, 8] rfl rfl

/-! ## The transmit buffer arbiter -/

/-- C8: on a transmit buffer with room for its two header bytes,
`getEndpointBuffer stream_id` returns the null pointer exactly when the buffer
is already reserved, and then the state is unchanged; otherwise it returns the
address of `txBuffer[2]`, sets the lock flag, stores `session_id` and
`stream_id` in bytes 0 and 1 and leaves the bytes from offset 2 on as they
were.  In both cases the link state, the endpoint table, the high-water mark,
the session identifier and the endpoint objects are unchanged; the operation
makes no call to the framer. -/
theorem getEndpointBuffer_reserves (s : SerialCommsInterface) (stream_id : Nat)
    (hbuf : 2 ≤ s.txBuffer.length) :
    ∃ p s1, getEndpointBuffer s stream_id = some (p, s1) ∧
      (p = none ↔ s.txBufferLocked = true) ∧
      (p = none → s1 = s) ∧
      (p ≠ none → p = some 2 ∧ s1.txBufferLocked = true ∧
        s1.txBuffer[0]? = some s.session_id ∧ s1.txBuffer[1]? = some stream_id ∧
        s1.txBuffer.drop 2 = s.txBuffer.drop 2 ∧ s1.txBuffer.length = s.txBuffer.length) ∧
      s1.driverState = s.driverState ∧ s1.endpoints = s.endpoints ∧
      s1.max_stream_record = s.max_stream_record ∧ s1.session_id = s.session_id ∧
      s1.endpoint_stream_id = s.endpoint_stream_id := by
  cases hl : s.txBufferLocked with
  | true =>
    exact ⟨none, s, getEndpointBuffer_locked s stream_id hl, by simp, by simp, by simp⟩
  | false =>
    refine ⟨some 2, _, getEndpointBuffer_free s stream_id hl hbuf, by simp, by simp, ?_⟩
    simp
    omega


set_option maxRecDepth 100000 in
theorem getEndpointBuffer_reserves_witness :
    ∃ p s1, getEndpointBuffer demoRunning 3 = some (p, s1) ∧
      (p = none ↔ demoRunning.txBufferLocked = true) ∧
      (p = none → s1 = demoRunning) ∧
      (p ≠ none → p = some 2 ∧ s1.txBufferLocked = true ∧
        s1.txBuffer[0]? = some demoRunning.session_id ∧ s1.txBuffer[1]? = some 3 ∧
        s1.txBuffer.drop 2 = demoRunning.txBuffer.drop 2 ∧
        s1.txBuffer.length = demoRunning.txBuffer.length) ∧
      s1.driverState = demoRunning.driverState ∧ s1.endpoints = demoRunning.endpoints ∧
      s1.max_stream_record = demoRunning.max_stream_record ∧
      s1.session_id = demoRunning.session_id ∧
      s1.endpoint_stream_id = demoRunning.endpoint_stream_id :=
  getEndpointBuffer_reserves demoRunning 3 (by decide)

/-- C9: on a free transmit buffer with room for its two header bytes, a
reservation for `a` succeeds, a second reservation for `b` before any release
fails and changes nothing, and after `returnEndpointBuffer n`, for any `n`, a
reservation for `c` succeeds. -/
theorem getEndpointBuffer_exclusive_until_returned (s : SerialCommsInterface) (a b c n : Nat)
    (hfree : s.txBufferLocked = false) (hbuf : 2 ≤ s.txBuffer.length) :
    ∃ s1 s3, getEndpointBuffer s a = some (some 2, s1) ∧
      getEndpointBuffer s1 b = some (none, s1) ∧
      getEndpointBuffer (returnEndpointBuffer s1 n).1 c = some (some 2, s3) := by
  have h1 := getEndpointBuffer_free s a hfree hbuf
  have h3 := getEndpointBuffer_free
    (returnEndpointBuffer { s with txBufferLocked := true
                                   txBuffer := s.session_id :: a :: s.txBuffer.drop 2 } n).1 c
    (by unfold returnEndpointBuffer; split <;> rfl)
    (by unfold returnEndpointBuffer; split <;> (simp))
  exact ⟨_, _, h1, getEndpointBuffer_locked _ b rfl, h3⟩

set_option maxRecDepth 100000 in
theorem getEndpointBuffer_exclusive_until_returned_witness :
    ∃ s1 s3, getEndpointBuffer demoInit 3 = some (some 2, s1) ∧
      getEndpointBuffer s1 4 = some (none, s1) ∧
      getEndpointBuffer (returnEndpointBuffer s1 0).1 5 = some (some 2, s3) :=
  getEndpointBuffer_exclusive_until_returned demoInit 3 4 5 0 rfl (by decide)

/-- C10: `returnEndpointBuffer n` clears the lock flag and changes nothing else
of the state (buffer content, link state, endpoint table); for `n = 0` it makes
no call to the framer, for `n > 0` exactly one, `sendFrame` with the buffer
origin and the byte count `n + 2`, which designates the first `n + 2` bytes of
`txBuffer` whenever the buffer holds that many. -/
theorem returnEndpointBuffer_releases (s : SerialCommsInterface) (n : Nat) :
    (returnEndpointBuffer s n).1 = { s with txBufferLocked := false } ∧
      (n = 0 → (returnEndpointBuffer s n).2 = []) ∧
      (0 < n → (returnEndpointBuffer s n).2 = [Event.sendFrame s.txBuffer (n + 2)]) ∧
      (n + 2 ≤ s.txBuffer.length →
        frameBytes s.txBuffer (n + 2) = some (s.txBuffer.take (n + 2))) := by
  refine ⟨?_, ?_, ?_, ?_⟩
  · unfold returnEndpointBuffer; split <;> rfl
  · intro h; simp [returnEndpointBuffer, h]
  · intro h; simp [returnEndpointBuffer, Nat.pos_iff_ne_zero.mp h]
  · intro h; simp [frameBytes, h]


theorem returnEndpointBuffer_releases_witness :
    (returnEndpointBuffer { demoRunning with txBufferLocked := true } 0).2 = [] ∧
      (returnEndpointBuffer { demoRunning with txBufferLocked := true } 3).2
        = [Event.sendFrame demoRunning.txBuffer 5] ∧
      (returnEndpointBuffer { demoRunning with txBufferLocked := true } 3).1 = demoRunning :=
  ⟨(returnEndpointBuffer_releases { demoRunning with txBufferLocked := true } 0).2.1 rfl,
    (returnEndpointBuffer_releases { demoRunning with txBufferLocked := true } 3).2.2.1
      (by decide),
    (returnEndpointBuffer_releases { demoRunning with txBufferLocked := true } 3).1⟩

/-! ## Producing a frame -/

/-- C11: from a state with the buffer free, for a payload `p` with
`1 ≤ |p| ≤ TX_MTU - 2`, the sequence `getEndpointBuffer stream_id`, writing `p`
at the returned region, `returnEndpointBuffer |p|` hands exactly one frame to
the framer, and its bytes are `[session_id, stream_id] ++ p`. -/
theorem reserve_fill_release_frame {T : Type} (env : Env T) (s : SerialCommsInterface)
    (stream_id : Nat) (p : List Nat) (hfree : s.txBufferLocked = false)
    (hcap : s.txBuffer.length = env.TX_MTU) (hp1 : 1 ≤ p.length)
    (hp2 : p.length ≤ env.TX_MTU - 2) :
    ∃ b s1, run env s [Op.getEndpointBuffer stream_id, Op.fill 0 p,
        Op.returnEndpointBuffer p.length] = some (s1, [Event.sendFrame b (p.length + 2)]) ∧
      frameBytes b (p.length + 2) = some (s.session_id :: stream_id :: p) := by
  have hlen : 2 + p.length ≤ s.txBuffer.length := by omega
  refine ⟨s.session_id :: stream_id :: (p ++ s.txBuffer.drop (2 + p.length)),
    { s with txBuffer := s.session_id :: stream_id :: (p ++ s.txBuffer.drop (2 + p.length))
             txBufferLocked := false }, ?_, ?_⟩
  · have hst : storeAll (s.session_id :: stream_id :: List.drop 2 s.txBuffer) 2 p
        = some (s.session_id :: stream_id :: (p ++ s.txBuffer.drop (2 + p.length))) := by
      rw [storeAll_eq _ _ _ (by simp; omega)]
      have e : 2 + p.length = p.length + 1 + 1 := by omega
      simp only [e, List.take_succ_cons, List.take_zero, List.drop_succ_cons, List.drop_drop,
        List.cons_append, List.nil_append]
    simp only [run, step, getEndpointBuffer_free s stream_id hfree (by omega), fillRegion,
      Nat.add_zero, hst, returnEndpointBuffer]
    rw [if_pos (by omega)]
    rfl
  · unfold frameBytes
    rw [if_pos (by simp)]
    have e : p.length + 2 = p.length + 1 + 1 := by omega
    simp only [e, List.take_succ_cons, List.take_left]


set_option maxRecDepth 100000 in
theorem reserve_fill_release_frame_witness :
    ∃ b s1, run demoEnv demoInit [Op.getEndpointBuffer 3, Op.fill 0 [0x42, 0x43],
        Op.returnEndpointBuffer [0x42, 0x43].length]
          = some (s1, [Event.sendFrame b ([0x42, 0x43].length + 2)]) ∧
      frameBytes b ([0x42, 0x43].length + 2) = some (demoInit.session_id :: 3 :: [0x42, 0x43]) :=
  reserve_fill_release_frame demoEnv demoInit 3 [0x42, 0x43] rfl (by decide) (by decide)
    (by decide)

/-! ## The endpoint registry -/

/-- C12: on an endpoint table of `MAX_ENDPOINTS` slots (an 8-bit count),
`registerEndpoint` of a non-null handle `h` returns `true` exactly when
`stream_id < MAX_ENDPOINTS` and slot `stream_id` is empty; a refusal changes
nothing; on success slot `stream_id` holds `h`, the `stream_id` member of `h` is
`stream_id`, the high-water mark is the larger of the old mark and
`stream_id + 1`, and every other slot, the link state, the transmit buffer, its
lock flag, the session identifier and every other endpoint object are
unchanged. -/
theorem registerEndpoint_spec {T : Type} (env : Env T) (s : SerialCommsInterface)
    (h stream_id : Nat) (htab : s.endpoints.length = env.MAX_ENDPOINTS)
    (hmax : env.MAX_ENDPOINTS < 256) :
    ∃ r s1, registerEndpoint env s (some h) stream_id = some (r, s1) ∧
      (r = true ↔ stream_id < env.MAX_ENDPOINTS ∧ s.endpoints[stream_id]? = some none) ∧
      (r = false → s1 = s) ∧
      (r = true →
        s1.endpoints[stream_id]? = some (some h) ∧ s1.endpoint_stream_id h = stream_id ∧
        s1.max_stream_record = max s.max_stream_record (stream_id + 1) ∧
        (∀ j, j ≠ stream_id → s1.endpoints[j]? = s.endpoints[j]?) ∧
        s1.driverState = s.driverState ∧ s1.txBuffer = s.txBuffer ∧
        s1.txBufferLocked = s.txBufferLocked ∧ s1.session_id = s.session_id ∧
        (∀ a, a ≠ h → s1.endpoint_stream_id a = s.endpoint_stream_id a)) := by
  have hex : ∃ r s1, registerEndpoint env s (some h) stream_id = some (r, s1) := by
    unfold registerEndpoint
    split
    · exact ⟨_, _, rfl⟩
    · rename_i hlt
      have hlt2 : stream_id < s.endpoints.length := by omega
      rw [List.getElem?_eq_getElem hlt2]
      cases s.endpoints[stream_id] with
      | some h0 => exact ⟨_, _, rfl⟩
      | none =>
        simp only
        split <;> exact ⟨_, _, rfl⟩
  obtain ⟨r, s1, hr⟩ := hex
  refine ⟨r, s1, hr, ?_⟩
  rcases registerEndpoint_some hr with ⟨rfl, rfl, hwhy⟩ | ⟨rfl, hlt, hslot, hh, he, rfl⟩
  · refine ⟨?_, fun _ => rfl, ?_⟩
    swap
    · intro hc; cases hc
    constructor
    · intro hc; cases hc
    · rintro ⟨hlt, hslot⟩
      rcases hwhy with hge | ⟨h0, hocc⟩
      · omega
      · rw [hslot] at hocc; cases hocc
  · cases he
    refine ⟨⟨fun _ => ⟨hlt, hslot⟩, fun _ => rfl⟩, ?_, fun _ => ?_⟩
    · intro hc; cases hc
    have hlt2 : stream_id < s.endpoints.length := by omega
    refine ⟨by simp [List.getElem?_set, hlt2], by simp, ?_, ?_, rfl, rfl, rfl, rfl, ?_⟩
    · simp only
      have hmod : (stream_id + 1) % 256 = stream_id + 1 := Nat.mod_eq_of_lt (by omega)
      split
      · rw [hmod]; omega
      · omega
    · intro j hj
      simp [List.getElem?_set, Ne.symm hj]
    · intro a ha
      simp [Function.update, ha]

set_option maxRecDepth 100000 in
theorem registerEndpoint_spec_witness :
    ∃ r s1, registerEndpoint demoEnv demoInit (some 100) 3 = some (r, s1) ∧
      (r = true ↔ 3 < demoEnv.MAX_ENDPOINTS ∧ demoInit.endpoints[3]? = some none) ∧
      (r = true → s1.endpoints[3]? = some (some 100) ∧ s1.endpoint_stream_id 100 = 3 ∧
        s1.max_stream_record = max demoInit.max_stream_record (3 + 1)) := by
  obtain ⟨r, s1, h, hiff, _, hok⟩ :=
    registerEndpoint_spec demoEnv demoInit 100 3 (by decide) (by decide)
  exact ⟨r, s1, h, hiff, fun e => ⟨(hok e).1, (hok e).2.1, (hok e).2.2.1⟩⟩

/-- C13: once `registerEndpoint h1 stream_id` has succeeded, then after any
further operations a `registerEndpoint h2 stream_id` (for any pointer `h2`)
returns `false` and changes nothing at all: slot `stream_id` still holds `h1`,
the mark, the other slots and every endpoint object are as before; and a frame
for `stream_id` that is dispatched (link `RUNNING`, selector not the clock-sync
identifier) goes to `h1`. -/
theorem registerEndpoint_first_registration_stays {T : Type} (env : Env T)
    (s s1 s2 : SerialCommsInterface) (h1 : Nat) (h2 : Option Nat) (stream_id : Nat)
    (ops : List (Op T)) (evs : List Event) (hmax : env.MAX_ENDPOINTS < 256)
    (hreg : registerEndpoint env s (some h1) stream_id = some (true, s1))
    (hrun : run env s1 ops = some (s2, evs)) :
    registerEndpoint env s2 h2 stream_id = some (false, s2) ∧
      s2.endpoints[stream_id]? = some (some h1) ∧
      ∀ (now : T) (f : List Nat), s2.driverState = NodeState.RUNNING → 2 < f.length →
        f[0]? = some s2.session_id → f[1]? = some stream_id →
        stream_id ≠ env.TIME_SYNC_ID →
        onIncomingData env now s2 f f.length
          = some (s2, [Event.spin h1 (f.drop 2) (f.length - 2)]) := by
  have h1s : s1.endpoints[stream_id]? = some (some h1) ∧ stream_id < s1.max_stream_record := by
    rcases registerEndpoint_some hreg with ⟨hc, _, _⟩ | ⟨_, hlt, hslot, hh, he, rfl⟩
    · cases hc
    · cases he
      have hid : stream_id < s.endpoints.length := by
        by_contra hge
        rw [List.getElem?_eq_none (by omega)] at hslot
        cases hslot
      refine ⟨by simp [List.getElem?_set, hid], ?_⟩
      simp only
      split
      · rw [Nat.mod_eq_of_lt (by omega)]; omega
      · omega
  have h2s := run_invariant env
    (fun x => x.endpoints[stream_id]? = some (some h1) ∧ stream_id < x.max_stream_record)
    (slot_kept_by_step env hmax stream_id h1) ops s1 s2 evs h1s hrun
  refine ⟨?_, h2s.1, ?_⟩
  · unfold registerEndpoint
    split
    · rfl
    · rw [h2s.1]
  · intro now f hr hlen hsid hk hts
    exact onIncomingData_to_occupied_slot env now s2 f stream_id h1 hr hlen hsid hk hts
      h2s.2 h2s.1

set_option maxRecDepth 100000 in
theorem registerEndpoint_first_registration_stays_witness :
    ∃ s1 s2 evs, registerEndpoint demoEnv demoInit (some 100) 3 = some (true, s1) ∧
      run demoEnv s1 [Op.registerEndpoint (some 102) 5, Op.onIncomingData 5 demoSyncFrame]
        = some (s2, evs) ∧
      registerEndpoint demoEnv s2 (some 101) 3 = some (false, s2) ∧
      s2.endpoints[3]? = some (some 100) ∧
      onIncomingData demoEnv 0 s2 [7, 3, 0x42] 3 = some (s2, [Event.spin 100 [0x42] 1]) :=
  ⟨_, _, _, rfl, rfl,
    (registerEndpoint_first_registration_stays demoEnv demoInit _ _ 100 (some 101) 3
      [Op.registerEndpoint (some 102) 5, Op.onIncomingData 5 demoSyncFrame] _
      (by decide) rfl rfl).1,
    (registerEndpoint_first_registration_stays demoEnv demoInit _ _ 100 (some 101) 3
      [Op.registerEndpoint (some 102) 5, Op.onIncomingData 5 demoSyncFrame] _
      (by decide) rfl rfl).2.1,
    (registerEndpoint_first_registration_stays demoEnv demoInit _ _ 100 (some 101) 3
      [Op.registerEndpoint (some 102) 5, Op.onIncomingData 5 demoSyncFrame] _
      (by decide) rfl rfl).2.2 0 [7, 3, 0x42] rfl (by decide) rfl rfl (by decide)⟩

/-! ## Reset and the link state -/

/-- C14 (as amended): from a state whose transmit buffer is free (and holds the
three bytes of the notification), whatever the link state, `reset` leaves the
link `OUT_OF_SYNC` and hands exactly one frame to the framer, of bytes
`[session_id, RESET_ID, 0]`; the buffer is left unreserved. -/
theorem reset_notifies {T : Type} (env : Env T) (s : SerialCommsInterface)
    (hfree : s.txBufferLocked = false) (hlen : 3 ≤ s.txBuffer.length) :
    reset env s
      = some ({ s with txBuffer := s.session_id :: env.RESET_ID :: 0 :: s.txBuffer.drop 3
                       txBufferLocked := false
                       driverState := NodeState.OUT_OF_SYNC },
          [Event.sendFrame (s.session_id :: env.RESET_ID :: 0 :: s.txBuffer.drop 3) 3]) ∧
      frameBytes (s.session_id :: env.RESET_ID :: 0 :: s.txBuffer.drop 3) 3
        = some [s.session_id, env.RESET_ID, 0] := by
  constructor
  · have hex : ∃ r, reset env s = some r := by
      unfold reset
      rw [getEndpointBuffer_free s _ hfree (by omega)]
      simp only
      rw [store_of_lt 0 (by simp; omega)]
      exact ⟨_, rfl⟩
    obtain ⟨⟨s1, evs⟩, hr⟩ := hex
    obtain ⟨_, _, rfl, rfl⟩ := reset_some hr
    exact hr
  · simp [frameBytes]

set_option maxRecDepth 100000 in
theorem reset_notifies_witness :
    reset demoEnv demoRunning
      = some ({ demoRunning with
                txBuffer := 7 :: 254 :: 0 :: demoRunning.txBuffer.drop 3
                txBufferLocked := false
                driverState := NodeState.OUT_OF_SYNC },
          [Event.sendFrame (7 :: 254 :: 0 :: demoRunning.txBuffer.drop 3) 3]) ∧
      frameBytes (7 :: 254 :: 0 :: demoRunning.txBuffer.drop 3) 3 = some [7, 254, 0] :=
  reset_notifies demoEnv demoRunning rfl (by decide)

set_option maxRecDepth 100000 in
/-- C14 fails as stated: with the transmit buffer reserved (here by a producer
that called `getEndpointBuffer 3` on a fresh interface), `reset` obtains the
null pointer and stores through it; it has no defined result, so no
notification frame is handed to the framer. -/
theorem reset_reserved_no_notification :
    ∃ s1, getEndpointBuffer demoInit 3 = some (some 2, s1) ∧ s1.txBufferLocked = true ∧
      ¬ ∃ s2 evs, reset demoEnv s1 = some (s2, evs) := by
  refine ⟨_, rfl, rfl, ?_⟩
  rintro ⟨s2, evs, h⟩
  have := (reset_some h).1
  cases this

/-- C15: a freshly constructed interface is `OUT_OF_SYNC`, and a defined step
either leaves the link state as it was, or is `reset` (ending `OUT_OF_SYNC`), or
is an inbound clock-sync frame whose handshake succeeds (ending `RUNNING`).  So
a step from `OUT_OF_SYNC` to `RUNNING` is a successful handshake, and a step
from `RUNNING` to `OUT_OF_SYNC` is `reset`. -/
theorem driverState_transitions {T : Type} (env : Env T) (sessionId : Nat) (tx : List Nat)
    (heap : Nat → Nat) (s s1 : SerialCommsInterface) (op : Op T) (evs : List Event)
    (h : step env s op = some (s1, evs)) :
    (construct env sessionId tx heap).driverState = NodeState.OUT_OF_SYNC ∧
      (s1.driverState = s.driverState ∨
        (op = Op.reset ∧ s1.driverState = NodeState.OUT_OF_SYNC) ∨
        (HandshakeSucceeds env s op ∧ s1.driverState = NodeState.RUNNING)) ∧
      (s.driverState = NodeState.OUT_OF_SYNC → s1.driverState = NodeState.RUNNING →
        HandshakeSucceeds env s op) ∧
      (s.driverState = NodeState.RUNNING → s1.driverState = NodeState.OUT_OF_SYNC →
        op = Op.reset) := by
  have key : s1.driverState = s.driverState ∨
      (op = Op.reset ∧ s1.driverState = NodeState.OUT_OF_SYNC) ∨
      (HandshakeSucceeds env s op ∧ s1.driverState = NodeState.RUNNING) := by
    cases op with
    | getEndpointBuffer stream_id =>
      simp only [step] at h
      cases hg : getEndpointBuffer s stream_id with
      | none => rw [hg] at h; cases h
      | some r =>
        obtain ⟨p, s2⟩ := r
        rw [hg] at h
        simp only [Option.some.injEq, Prod.mk.injEq] at h
        obtain ⟨rfl, _⟩ := h
        rcases getEndpointBuffer_some hg with ⟨_, _, rfl⟩ | ⟨_, _, _, rfl⟩ <;>
          exact Or.inl rfl
    | fill offset bytes =>
      simp only [step] at h
      cases hg : fillRegion s (2 + offset) bytes with
      | none => rw [hg] at h; cases h
      | some s2 =>
        rw [hg] at h
        simp only [Option.some.injEq, Prod.mk.injEq] at h
        obtain ⟨rfl, _⟩ := h
        obtain ⟨b, _, rfl⟩ := fillRegion_some hg
        exact Or.inl rfl
    | returnEndpointBuffer size =>
      simp only [step, Option.some.injEq] at h
      have := (returnEndpointBuffer_events s size).1
      rw [h] at this
      simp only at this
      rw [this]
      exact Or.inl rfl
    | registerEndpoint endpoint stream_id =>
      simp only [step] at h
      cases hg : registerEndpoint env s endpoint stream_id with
      | none => rw [hg] at h; cases h
      | some r =>
        obtain ⟨ok, s2⟩ := r
        rw [hg] at h
        simp only [Option.some.injEq, Prod.mk.injEq] at h
        obtain ⟨rfl, _⟩ := h
        rcases registerEndpoint_some hg with ⟨_, rfl, _⟩ | ⟨_, _, _, hh, _, rfl⟩ <;>
          exact Or.inl rfl
    | reset =>
      simp only [step] at h
      obtain ⟨_, _, rfl, _⟩ := reset_some h
      exact Or.inr (Or.inl ⟨rfl, rfl⟩)
    | onIncomingData now frame =>
      simp only [step] at h
      rcases onIncomingData_some h with ⟨rfl, _⟩ | ⟨hs, _, b, _, rfl, _⟩
      · exact Or.inl rfl
      · exact Or.inr (Or.inr ⟨hs, rfl⟩)
  refine ⟨rfl, key, ?_, ?_⟩
  · intro h0 h1
    rcases key with e | ⟨_, e⟩ | ⟨hs, _⟩
    · rw [h0, h1] at e; cases e
    · rw [h1] at e; cases e
    · exact hs
  · intro h0 h1
    rcases key with e | ⟨e, _⟩ | ⟨_, e⟩
    · rw [h0, h1] at e; cases e
    · exact e
    · rw [h1] at e; cases e

set_option maxRecDepth 100000 in
theorem driverState_transitions_witness :
    step demoEnv demoInit (Op.onIncomingData 5 demoSyncFrame)
      = some ({ demoInit with txBuffer := replyBuffer demoEnv 5 demoInit [1, 2, 3, 4, 5, 6, 7, 8]
                              txBufferLocked := false
                              driverState := NodeState.RUNNING },
          [Event.sendFrame (replyBuffer demoEnv 5 demoInit [1, 2, 3, 4, 5, 6, 7, 8]) 18]) ∧
      HandshakeSucceeds demoEnv demoInit (Op.onIncomingData 5 demoSyncFrame) :=
  ⟨rfl, (driverState_transitions demoEnv 7 [] (fun _ => 0) demoInit
      { demoInit with txBuffer := replyBuffer demoEnv 5 demoInit [1, 2, 3, 4, 5, 6, 7, 8]
                      txBufferLocked := false
                      driverState := NodeState.RUNNING }
      (Op.onIncomingData 5 demoSyncFrame)
      [Event.sendFrame (replyBuffer demoEnv 5 demoInit [1, 2, 3, 4, 5, 6, 7, 8]) 18]
      rfl).2.2.1 rfl rfl⟩

/-! ## The clock-sync selector and the high-water mark -/

/-- C16: a frame whose selector is the clock-sync identifier never reaches an
endpoint handler.  Either `onIncomingData` has a defined result, and then no
`spin` call is among the calls it made, whether the handshake succeeded or not
and whatever the endpoint table holds; or the buffer was free and the reply did
not fit in it.  And `registerEndpoint` does accept a handler at the clock-sync
identifier when that identifier is below `MAX_ENDPOINTS` and its slot empty. -/
theorem clock_sync_selector_never_dispatches {T : Type} (env : Env T) (now : T)
    (s : SerialCommsInterface) (f : List Nat) (hts : f[1]? = some env.TIME_SYNC_ID) :
    ((∃ s1 evs, onIncomingData env now s f f.length = some (s1, evs) ∧
          ∀ hh p l, Event.spin hh p l ∉ evs) ∨
        (onIncomingData env now s f f.length = none ∧ s.txBufferLocked = false ∧
          s.txBuffer.length < f.length + (env.serialize now).length)) ∧
      (∀ hh, env.TIME_SYNC_ID < env.MAX_ENDPOINTS →
        s.endpoints[env.TIME_SYNC_ID]? = some none →
        ∃ s1, registerEndpoint env s (some hh) env.TIME_SYNC_ID = some (true, s1) ∧
          s1.endpoints[env.TIME_SYNC_ID]? = some (some hh)) := by
  constructor
  · unfold onIncomingData
    by_cases hg : f.getD 0 0 ≠ s.session_id ∨ f.length ≤ 2
    · rw [if_pos hg]
      exact Or.inl ⟨_, _, rfl, by simp⟩
    · rw [if_neg hg, if_pos (getD_eq_of_getElem? hts)]
      have hlen : (List.drop 2 f).length = f.length - 2 := by simp
      cases hc : clock_sync_reply env now s (List.drop 2 f) (f.length - 2) with
      | none =>
        right
        refine ⟨rfl, ?_⟩
        by_contra hcon
        have hfit : s.txBufferLocked = true ∨
            2 + (List.drop 2 f).length + (env.serialize now).length ≤ s.txBuffer.length := by
          cases hl : s.txBufferLocked with
          | true => exact Or.inl rfl
          | false =>
            right
            rw [hl] at hcon
            simp only [true_and, not_lt] at hcon
            rw [hlen]; omega
        obtain ⟨r, hr⟩ := clock_sync_reply_defined env now s (List.drop 2 f) hfit
        rw [hlen, hc] at hr
        cases hr
      | some r =>
        obtain ⟨ok, s2, evs2⟩ := r
        left
        have hev : ∀ hh p l, Event.spin hh p l ∉ evs2 := by
          intro hh p l
          rcases clock_sync_reply_some hc with
            ⟨_, _, rfl⟩ | ⟨_, _, b, _, _, rfl | ⟨n, _, rfl⟩⟩ <;> simp
        cases ok with
        | true => exact ⟨_, _, rfl, hev⟩
        | false => exact ⟨_, _, rfl, hev⟩
  · intro hh hlt hslot
    have hid : env.TIME_SYNC_ID < s.endpoints.length := by
      by_contra hge
      rw [List.getElem?_eq_none (by omega)] at hslot
      cases hslot
    unfold registerEndpoint
    rw [if_neg (by omega), hslot]
    simp only
    split <;> exact ⟨_, rfl, by simp [List.getElem?_set, hid]⟩

set_option maxRecDepth 100000 in
theorem clock_sync_selector_never_dispatches_witness :
    demoRunning.endpoints[collideEnv.TIME_SYNC_ID]? = some (some 100) ∧
      ((∃ s1 evs, onIncomingData collideEnv 5 demoRunning [7, 3, 1, 2, 3, 4, 5, 6, 7, 8]
            [7, 3, 1, 2, 3, 4, 5, 6, 7, 8].length = some (s1, evs) ∧
          ∀ hh p l, Event.spin hh p l ∉ evs) ∨
        (onIncomingData collideEnv 5 demoRunning [7, 3, 1, 2, 3, 4, 5, 6, 7, 8]
            [7, 3, 1, 2, 3, 4, 5, 6, 7, 8].length = none ∧
          demoRunning.txBufferLocked = false ∧
          demoRunning.txBuffer.length
            < [7, 3, 1, 2, 3, 4, 5, 6, 7, 8].length + (collideEnv.serialize 5).length)) :=
  ⟨rfl, (clock_sync_selector_never_dispatches collideEnv 5 demoRunning
    [7, 3, 1, 2, 3, 4, 5, 6, 7, 8] rfl).1⟩

/-- C17: in every state reached from construction by a defined sequence of
operations, with `MAX_ENDPOINTS` an 8-bit count: the high-water mark is 0 when
no slot is occupied; otherwise it is positive, slot `mark - 1` is occupied and
no occupied slot lies above it; every occupied slot is below the mark; the mark
is at most `MAX_ENDPOINTS`; and `stream_id + 1` does not wrap in 8 bits for any
identifier the registry accepts. -/
theorem max_stream_record_invariant {T : Type} (env : Env T) (sessionId : Nat)
    (tx : List Nat) (heap : Nat → Nat) (ops : List (Op T)) (s : SerialCommsInterface)
    (evs : List Event) (hmax : env.MAX_ENDPOINTS < 256)
    (hrun : run env (construct env sessionId tx heap) ops = some (s, evs)) :
    ((∀ i, ¬ Occupied s i) → s.max_stream_record = 0) ∧
      ((∃ i, Occupied s i) →
        0 < s.max_stream_record ∧ Occupied s (s.max_stream_record - 1) ∧
        ∀ i, Occupied s i → i ≤ s.max_stream_record - 1) ∧
      (∀ i, Occupied s i → i < s.max_stream_record) ∧
      s.max_stream_record ≤ env.MAX_ENDPOINTS ∧
      (∀ stream_id, stream_id < env.MAX_ENDPOINTS → (stream_id + 1) % 256 = stream_id + 1) := by
  have hinv : MarkInv env s :=
    run_invariant env (MarkInv env) (markInv_step env hmax) ops _ s evs
      (markInv_construct env sessionId tx heap) hrun
  obtain ⟨_, hbelow, htop, hle⟩ := hinv
  refine ⟨?_, ?_, hbelow, hle, fun id hid => Nat.mod_eq_of_lt (by omega)⟩
  · intro hnone
    rcases htop with h0 | hocc
    · exact h0
    · exact absurd hocc (hnone _)
  · rintro ⟨i, hi⟩
    have hpos : 0 < s.max_stream_record := by have := hbelow i hi; omega
    refine ⟨hpos, ?_, fun j hj => by have := hbelow j hj; omega⟩
    rcases htop with h0 | hocc
    · omega
    · exact hocc

set_option maxRecDepth 100000 in
theorem max_stream_record_invariant_witness :
    ∃ s evs, run demoEnv (construct demoEnv 7 (List.replicate 256 0) (fun _ => 0))
        [Op.registerEndpoint (some 100) 3, Op.registerEndpoint (some 101) 1] = some (s, evs) ∧
      s.max_stream_record = 4 ∧ Occupied s 3 ∧ Occupied s 1 ∧
      (∀ i, Occupied s i → i < s.max_stream_record) ∧
      s.max_stream_record ≤ demoEnv.MAX_ENDPOINTS :=
  ⟨_, _, rfl, rfl, ⟨100, rfl⟩, ⟨101, rfl⟩,
    (max_stream_record_invariant demoEnv 7 (List.replicate 256 0) (fun _ => 0)
      [Op.registerEndpoint (some 100) 3, Op.registerEndpoint (some 101) 1] _ _
      (by decide) rfl).2.2.1,
    (max_stream_record_invariant demoEnv 7 (List.replicate 256 0) (fun _ => 0)
      [Op.registerEndpoint (some 100) 3, Op.registerEndpoint (some 101) 1] _ _
      (by decide) rfl).2.2.2.1⟩

/-! ## Frames handed to the framer -/

/-- C18 (as amended): over every defined sequence of operations from the
freshly constructed state in which `returnEndpointBuffer` is called with a
non-zero size only while the buffer is reserved, every frame handed to the
framer has a byte count of at least 3 and the session identifier as its first
byte. -/
theorem frames_carry_session_id {T : Type} (env : Env T) (sessionId : Nat) (tx : List Nat)
    (heap : Nat → Nat) (ops : List (Op T)) (s : SerialCommsInterface) (evs : List Event)
    (hheld : ReleasesHeld env (construct env sessionId tx heap) ops)
    (hrun : run env (construct env sessionId tx heap) ops = some (s, evs)) :
    ∀ b n, Event.sendFrame b n ∈ evs →
      3 ≤ n ∧ b[0]? = some (construct env sessionId tx heap).session_id :=
  run_header env ops _ s evs (by intro hl; cases hl) hheld hrun

set_option maxRecDepth 100000 in
theorem frames_carry_session_id_witness :
    run demoEnv (construct demoEnv 7 (List.replicate 256 0) (fun _ => 0))
        [Op.getEndpointBuffer 3, Op.fill 0 [0x42], Op.returnEndpointBuffer 1]
      = some ({ demoInit with txBuffer := 7 :: 3 :: 0x42 :: List.replicate 253 0 },
          [Event.sendFrame (7 :: 3 :: 0x42 :: List.replicate 253 0) 3]) ∧
      (3 ≤ 3 ∧ (7 :: 3 :: 0x42 :: List.replicate 253 0)[0]?
        = some (construct demoEnv 7 (List.replicate 256 0) (fun _ => 0)).session_id) :=
  ⟨rfl, frames_carry_session_id demoEnv 7 (List.replicate 256 0) (fun _ => 0)
    [Op.getEndpointBuffer 3, Op.fill 0 [0x42], Op.returnEndpointBuffer 1]
    { demoInit with txBuffer := 7 :: 3 :: 0x42 :: List.replicate 253 0 }
    [Event.sendFrame (7 :: 3 :: 0x42 :: List.replicate 253 0) 3]
    ⟨fun _ h => (nomatch h), fun _ h => (nomatch h), fun _ _ _ => rfl, trivial⟩ rfl
    (7 :: 3 :: 0x42 :: List.replicate 253 0) 3 (List.mem_singleton.mpr rfl)⟩

set_option maxRecDepth 100000 in
/-- C18 fails as stated: on the freshly constructed interface of session 7,
whose buffer was never reserved, the single public call
`returnEndpointBuffer 1` hands the framer a three-byte frame whose first byte
is whatever the uninitialised buffer holds (here 0), not the session
identifier. -/
theorem returnEndpointBuffer_unreserved_foreign_header :
    ∃ s b, run demoEnv demoInit [Op.returnEndpointBuffer 1]
        = some (s, [Event.sendFrame b 3]) ∧
      b[0]? = some 0 ∧ demoInit.session_id = 7 :=
  ⟨_, _, rfl, rfl, rfl⟩

/-! ## Mutual exclusion and link-state independence -/

set_option maxRecDepth 100000 in
/-- C19 (the code departs from the claim): a producer reserves the buffer of a
fresh interface and writes one payload byte; `reset`, called while that
reservation is held, has no defined result (it stores through the null pointer
it was handed) instead of leaving the reservation as it is. -/
theorem reset_breaks_reservation :
    ∃ s1, run demoEnv demoInit [Op.getEndpointBuffer 3, Op.fill 0 [0x42]] = some (s1, []) ∧
      s1.txBufferLocked = true ∧ step demoEnv s1 Op.reset = none :=
  ⟨_, rfl, rfl, rfl⟩

/-- C20 (as amended): for a frame whose selector is the clock-sync identifier,
or is the reset identifier while no slot at or above the high-water mark can be
looked up there, and two states that differ only in the link state, the
dispatcher behaves alike: both calls are undefined (a reply that does not fit),
or both return their own state unchanged having made no call, or both return
the very same state, `RUNNING`, having made the same calls, none of them to an
endpoint handler. -/
theorem control_frames_ignore_link_state {T : Type} (env : Env T) (now : T)
    (s1 s2 : SerialCommsInterface) (f : List Nat) (k : Nat)
    (hdiff : DifferOnlyInLinkState s1 s2) (hk : f[1]? = some k)
    (hctl : k = env.TIME_SYNC_ID ∨ (k = env.RESET_ID ∧ s1.max_stream_record ≤ k)) :
    (onIncomingData env now s1 f f.length = none ∧
        onIncomingData env now s2 f f.length = none) ∨
      (onIncomingData env now s1 f f.length = some (s1, []) ∧
        onIncomingData env now s2 f f.length = some (s2, [])) ∨
      (∃ s3 evs, s3.driverState = NodeState.RUNNING ∧
        onIncomingData env now s1 f f.length = some (s3, evs) ∧
        onIncomingData env now s2 f f.length = some (s3, evs) ∧
        ∀ hh p l, Event.spin hh p l ∉ evs) := by
  unfold DifferOnlyInLinkState at hdiff
  generalize s2.driverState = d at hdiff
  subst hdiff
  unfold onIncomingData
  simp only
  by_cases hg : f.getD 0 0 ≠ s1.session_id ∨ f.length ≤ 2
  · rw [if_pos hg, if_pos hg]
    exact Or.inr (Or.inl ⟨rfl, rfl⟩)
  · rw [if_neg hg, if_neg hg, getD_eq_of_getElem? hk]
    by_cases hts : k = env.TIME_SYNC_ID
    · rw [if_pos hts, if_pos hts, clock_sync_reply_with_driverState env now s1 d]
      cases hc : clock_sync_reply env now s1 (List.drop 2 f) (f.length - 2) with
      | none => exact Or.inl ⟨rfl, rfl⟩
      | some r =>
        obtain ⟨ok, s3, evs⟩ := r
        rcases clock_sync_reply_some hc with ⟨rfl, rfl, rfl⟩ | ⟨rfl, _, b, _, rfl, hev⟩
        · exact Or.inr (Or.inl ⟨rfl, rfl⟩)
        · refine Or.inr (Or.inr ⟨_, evs, ?_, rfl, rfl, ?_⟩)
          · rfl
          · intro hh p l
            rcases hev with rfl | ⟨n, _, rfl⟩ <;> simp
    · rcases hctl with e | ⟨_, hm⟩
      · exact absurd e hts
      · rw [if_neg hts, if_neg hts, if_pos (Or.inr hm), if_pos (Or.inr hm)]
        exact Or.inr (Or.inl ⟨rfl, rfl⟩)

set_option maxRecDepth 100000 in
theorem control_frames_ignore_link_state_witness :
    (onIncomingData demoEnv 5 demoInit demoSyncFrame demoSyncFrame.length = none ∧
        onIncomingData demoEnv 5 { demoInit with driverState := NodeState.RUNNING }
          demoSyncFrame demoSyncFrame.length = none) ∨
      (onIncomingData demoEnv 5 demoInit demoSyncFrame demoSyncFrame.length
          = some (demoInit, []) ∧
        onIncomingData demoEnv 5 { demoInit with driverState := NodeState.RUNNING }
          demoSyncFrame demoSyncFrame.length
          = some ({ demoInit with driverState := NodeState.RUNNING }, [])) ∨
      (∃ s3 evs, s3.driverState = NodeState.RUNNING ∧
        onIncomingData demoEnv 5 demoInit demoSyncFrame demoSyncFrame.length
          = some (s3, evs) ∧
        onIncomingData demoEnv 5 { demoInit with driverState := NodeState.RUNNING }
          demoSyncFrame demoSyncFrame.length = some (s3, evs) ∧
        ∀ hh p l, Event.spin hh p l ∉ evs) :=
  control_frames_ignore_link_state demoEnv 5 demoInit
    { demoInit with driverState := NodeState.RUNNING } demoSyncFrame 255 rfl rfl (Or.inl rfl)

/-- C20 fails as stated: two states that differ only in the link state receive
the same clock-sync frame, whose three-byte request the codec does not consume
in its length; nothing is sent and no handler is called in either, but each
keeps its own link state, so the resulting link states are not the same. -/
theorem clock_sync_failure_keeps_link_states_apart :
    DifferOnlyInLinkState demoRunning { demoRunning with driverState := NodeState.OUT_OF_SYNC } ∧
      [7, 255, 1, 2, 3][1]? = some demoEnv.TIME_SYNC_ID ∧
      ∃ s3 s4, onIncomingData demoEnv 0 demoRunning [7, 255, 1, 2, 3] 5 = some (s3, []) ∧
        onIncomingData demoEnv 0 { demoRunning with driverState := NodeState.OUT_OF_SYNC }
          [7, 255, 1, 2, 3] 5 = some (s4, []) ∧
        s3.driverState = NodeState.RUNNING ∧ s4.driverState = NodeState.OUT_OF_SYNC :=
  ⟨rfl, rfl, _, _, rfl, rfl, rfl, rfl⟩


set_option maxRecDepth 100000 in
/-- The dispatcher has no case for the reset identifier: were that identifier 5
and a handler registered at stream 5, a frame with selector 5 would be ordinary
endpoint traffic, delivered in `RUNNING` and dropped in `OUT_OF_SYNC`. -/
theorem reset_selector_is_endpoint_traffic :
    collideEnv.RESET_ID = 5 ∧
      onIncomingData collideEnv 0 demoRunningAt5 [7, 5, 0x42] 3
        = some (demoRunningAt5, [Event.spin 105 [0x42] 1]) ∧
      onIncomingData collideEnv 0 { demoRunningAt5 with driverState := NodeState.OUT_OF_SYNC }
          [7, 5, 0x42] 3
        = some ({ demoRunningAt5 with driverState := NodeState.OUT_OF_SYNC }, []) :=
  ⟨rfl, rfl, rfl⟩

end SerialComms
